import Mathlib

/-! Weather service: request pipeline

A shallow embedding of the Go sources of the weather gateway
(`internal/handler`, `internal/util`, `internal/repo`, `internal/middleware`)
together with the properties proved about them.

Go's `float64` is embedded as `Float64` below: IEEE-754 binary64 with
round-to-nearest-even, finite values being kept in their unique
mantissa/exponent form so that every operation is computable.
-/

namespace WeatherService

/-! ## float64 -/

/-- IEEE-754 binary64 values.  A finite value is `(-1)^sign * mant * 2^exp`
with `mant < 2^53`, `exp ≥ -1074`, and `2^52 ≤ mant` unless `exp = -1074`
(subnormals and the two zeros). -/
inductive Float64 where
  | nan
  | inf (sign : Bool)
  | fin (sign : Bool) (mant : Nat) (exp : Int)
deriving DecidableEq, Repr

namespace Float64

/-- Number of binary digits of `n`, computed with at most `fuel` halvings. -/
def bitLenAux : Nat → Nat → Nat
  | 0, _ => 0
  | fuel + 1, n => if n = 0 then 0 else bitLenAux fuel (n / 2) + 1

/-- Number of binary digits of `n` (`0` for `0`). -/
def bitLen (n : Nat) : Nat := bitLenAux n n

/-- Multiply a natural number by `2^k` for `k ≥ 0`; identity for negative `k`. -/
def shl (n : Nat) (k : Int) : Nat := n * 2 ^ k.toNat

/-- The exponent `e` with `2^e ≤ num/den < 2^(e+1)`, for `num, den > 0`. -/
def floorLog2 (num den : Nat) : Int :=
  let d : Int := (bitLen num : Int) - (bitLen den : Int)
  if shl den d ≤ shl num (-d) then d else d - 1

/-- Round the positive rational `num/den` to an integer, ties to even. -/
def roundHalfEven (num den : Nat) : Nat :=
  let n := num / den
  let r := num % den
  if den < 2 * r then n + 1
  else if 2 * r = den ∧ n % 2 = 1 then n + 1
  else n

/-- The binary64 value nearest to `(-1)^sign * (num/den) * 2^k`
(round to nearest, ties to even; overflow gives an infinity). -/
def round (sign : Bool) (num den : Nat) (k : Int) : Float64 :=
  if num = 0 ∨ den = 0 then fin sign 0 (-1074) else
  let e : Int := floorLog2 num den + k
  let qe : Int := max (e - 52) (-1074)
  let s : Int := k - qe
  let n := roundHalfEven (shl num s) (shl den (-s))
  if n = 2 ^ 53 then
    (if 971 < qe + 1 then inf sign else fin sign (2 ^ 52) (qe + 1))
  else if 971 < qe then inf sign
  else fin sign n qe

/-- Conversion of an integer constant or of an `int64` to `float64`. -/
def ofInt (z : Int) : Float64 := round (decide (z < 0)) z.natAbs 1 0

/-- The `float64` nearest to the decimal constant `num/den`. -/
def ofDecimal (num den : Nat) : Float64 := round false num den 0

instance instOfNat (n : Nat) : OfNat Float64 n := ⟨ofInt n⟩

/-- The finite value `(-1)^sign * mant * 2^exp` scaled by `2^(-k)`, as an
integer; exact whenever `k ≤ exp`. -/
def scaled (sign : Bool) (mant : Nat) (exp k : Int) : Int :=
  let v : Int := (shl mant (exp - k) : Nat)
  if sign then -v else v

/-- Go's `x < y` on `float64`: false as soon as one side is NaN. -/
def lt : Float64 → Float64 → Bool
  | nan, _ => false
  | _, nan => false
  | inf s, inf t => s && !t
  | inf s, fin _ _ _ => s
  | fin _ _ _, inf t => !t
  | fin s m e, fin t n f =>
    decide (scaled s m e (min e f) < scaled t n f (min e f))

/-- Go's `x <= y` on `float64`: false as soon as one side is NaN. -/
def le : Float64 → Float64 → Bool
  | nan, _ => false
  | _, nan => false
  | inf s, inf t => s || !t
  | inf s, fin _ _ _ => s
  | fin _ _ _, inf t => !t
  | fin s m e, fin t n f =>
    decide (scaled s m e (min e f) ≤ scaled t n f (min e f))

/-- Go's `x > y`. -/
def gt (x y : Float64) : Bool := lt y x

/-- Unary minus. -/
def neg : Float64 → Float64
  | nan => nan
  | inf s => inf (!s)
  | fin s m e => fin (!s) m e

/-- Go's `x + y` on `float64`. -/
def add : Float64 → Float64 → Float64
  | nan, _ => nan
  | _, nan => nan
  | inf s, inf t => if s = t then inf s else nan
  | inf s, fin _ _ _ => inf s
  | fin _ _ _, inf t => inf t
  | fin s m e, fin t n f =>
    let k := min e f
    let z : Int := scaled s m e k + scaled t n f k
    if z = 0 then fin (s && t) 0 (-1074)
    else round (decide (z < 0)) z.natAbs 1 k

/-- Go's `x - y` on `float64`. -/
def sub (x y : Float64) : Float64 := add x (neg y)

/-- Go's `x * y` on `float64`. -/
def mul : Float64 → Float64 → Float64
  | nan, _ => nan
  | _, nan => nan
  | inf s, inf t => inf (xor s t)
  | inf s, fin t n _ => if n = 0 then nan else inf (xor s t)
  | fin s m _, inf t => if m = 0 then nan else inf (xor s t)
  | fin s m e, fin t n f => round (xor s t) (m * n) 1 (e + f)

/-- Go's `x / y` on `float64`. -/
def div : Float64 → Float64 → Float64
  | nan, _ => nan
  | _, nan => nan
  | inf _, inf _ => nan
  | inf s, fin t _ _ => inf (xor s t)
  | fin s _ _, inf t => fin (xor s t) 0 (-1074)
  | fin s m e, fin t n f =>
    if n = 0 then (if m = 0 then nan else inf (xor s t))
    else round (xor s t) m n (e - f)

instance : Add Float64 := ⟨add⟩
instance : Sub Float64 := ⟨sub⟩
instance : Mul Float64 := ⟨mul⟩
instance : Div Float64 := ⟨div⟩

/-- The exact rational value of a finite `float64` (`0` for NaN and the
infinities, which have none). -/
def toRat : Float64 → ℚ
  | fin s m e => (if s then -1 else 1) * (m : ℚ) * (2 : ℚ) ^ e
  | _ => 0

/-- Whether the value is finite. -/
def isFinite : Float64 → Bool
  | fin _ _ _ => true
  | _ => false

end Float64

/-! ## internal/util/temperature.go and the classifier of internal/handler/weather.go -/

/-- The constant `273.15` of the source, as the nearest `float64`. -/
def kelvinOffset : Float64 := Float64.ofDecimal 27315 100

/-- ConvertTempToFahrenheit converts temperature from Celsius / Kelvin to Fahrenheit. -/
def ConvertTempToFahrenheit (temp : Float64) (unit : String) : Float64 :=
  if unit = "metric" then (temp * 9 / 5) + 32
  else if unit = "standard" then ((temp - kelvinOffset) * 9 / 5) + 32
  else temp

/-- CategorizeTemperature categorizes the temperature into human-readable form. -/
def CategorizeTemperature (tempFahrenheit : Float64) : String :=
  if Float64.le tempFahrenheit 32 then "Freezing"
  else if Float64.gt tempFahrenheit 32 && Float64.le tempFahrenheit 50 then "Cold"
  else if Float64.gt tempFahrenheit 50 && Float64.le tempFahrenheit 68 then "Cool"
  else if Float64.gt tempFahrenheit 68 && Float64.le tempFahrenheit 77 then "Mild"
  else if Float64.gt tempFahrenheit 77 && Float64.le tempFahrenheit 95 then "Warm"
  else "Hot"

/-! ## Go errors (package errors, fmt.Errorf) -/

/-- The six failure kinds declared in internal/repo/weatherapi.go. -/
inductive FailureKind where
  | ErrInvalidAPIKey
  | ErrBadRequest
  | ErrServiceUnavailable
  | ErrUnexpectedStatusCode
  | ErrDecodingResponse
  | ErrTimeout
deriving DecidableEq, Repr

/-- Go error values.  `sentinel k` is one of the package-level variables of
internal/repo, `DeadlineExceeded` is `context.DeadlineExceeded`, `plain msg` is
an error without `Unwrap` (`errors.New`, `fmt.Errorf` without `%w`), and
`wrap msg inner` is an error whose `Unwrap` returns `inner` (`fmt.Errorf` with
`%w`, `*url.Error`, ...).  Errors that unwrap to several errors or bring
their own `Is` method are produced nowhere in the repository and have no
constructor here. -/
inductive GoError where
  | sentinel (k : FailureKind)
  | DeadlineExceeded
  | plain (msg : String)
  | wrap (msg : String) (inner : GoError)
deriving DecidableEq, Repr

deriving instance DecidableEq for Except

/-- The text of each failure kind, as passed to `errors.New`. -/
def FailureKind.text : FailureKind → String
  | .ErrInvalidAPIKey => "invalid OpenWeatherMap API key"
  | .ErrBadRequest => "bad request to OpenWeather API"
  | .ErrServiceUnavailable => "OpenWeather API service is unavailable"
  | .ErrUnexpectedStatusCode => "unexpected status code from OpenWeather API"
  | .ErrDecodingResponse => "error decoding response from OpenWeather API"
  | .ErrTimeout => "request to OpenWeather API timed out"

/-- The method `Error()`. -/
def GoError.Error : GoError → String
  | .sentinel k => k.text
  | .DeadlineExceeded => "context deadline exceeded"
  | .plain msg => msg
  | .wrap msg _ => msg

/-- The function `errors.Is`: whether `target` occurs in the `Unwrap` chain of `err`. -/
def errorsIs : GoError → GoError → Bool
  | .wrap msg inner, target =>
    decide (GoError.wrap msg inner = target) || errorsIs inner target
  | err, target => decide (err = target)

/-- The innermost error of an `Unwrap` chain. -/
def GoError.root : GoError → GoError
  | .wrap _ inner => inner.root
  | err => err

/-- `fmt.Errorf("%w" ++ detail, target)`: wraps `target`, the message being
the text of `target` followed by the formatted detail. -/
def errorfW (target : GoError) (detail : String) : GoError :=
  .wrap (target.Error ++ detail) target

/-- `fmt.Errorf(text ++ "%v", err)`: a new error that does not wrap `err`. -/
def errorfV (text : String) (err : GoError) : GoError :=
  .plain (text ++ err.Error)

abbrev ErrInvalidAPIKey : GoError := .sentinel .ErrInvalidAPIKey
abbrev ErrBadRequest : GoError := .sentinel .ErrBadRequest
abbrev ErrServiceUnavailable : GoError := .sentinel .ErrServiceUnavailable
abbrev ErrUnexpectedStatusCode : GoError := .sentinel .ErrUnexpectedStatusCode
abbrev ErrDecodingResponse : GoError := .sentinel .ErrDecodingResponse
abbrev ErrTimeout : GoError := .sentinel .ErrTimeout

/-! ## net/http: headers, response writers, http.Error -/

/-- Whether `c` may occur in a header field name (an RFC 7230 token byte). -/
def validHeaderFieldByte (c : Char) : Bool :=
  c.isAlphanum || "!#$%&\x27*+-.^_\x60|~".toList.contains c

/-- Upper-case the first letter and every letter after a hyphen, lower-case the others. -/
def canonicalize : Bool → List Char → List Char
  | _, [] => []
  | upper, c :: cs =>
    (if upper then c.toUpper else c.toLower) :: canonicalize (c == '-') cs

/-- The function `textproto.CanonicalMIMEHeaderKey`. -/
def CanonicalMIMEHeaderKey (s : String) : String :=
  if s.toList.all validHeaderFieldByte then String.mk (canonicalize true s.toList) else s

/-- An `http.Header`: canonical field names with their values. -/
abbrev Header := List (String × List String)

/-- The method `Header.Get`: first value of the field, or the empty string. -/
def Header.Get (h : Header) (key : String) : String :=
  match h.lookup (CanonicalMIMEHeaderKey key) with
  | some (v :: _) => v
  | _ => ""

/-- The method `Header.Del`. -/
def Header.Del (h : Header) (key : String) : Header :=
  h.filter (fun kv => kv.1 != CanonicalMIMEHeaderKey key)

/-- The method `Header.Set`: the field gets the single value `value`. -/
def Header.Set (h : Header) (key value : String) : Header :=
  (CanonicalMIMEHeaderKey key, [value]) :: Header.Del h key

/-- The response as recorded by `httptest.ResponseRecorder` (equally, as sent
by the server): status code, header map, body, and the headers frozen by the
first `WriteHeader`.  Content-type sniffing on the first write is left out. -/
structure ResponseRecorder where
  Code : Int := 200
  HeaderMap : Header := []
  Body : String := ""
  wroteHeader : Bool := false
  snapHeader : Header := []
deriving DecidableEq, Repr

/-- The implementations of `http.ResponseWriter` that occur: the recorder, and
the `responseWriter` of internal/middleware/logger.go which embeds another
writer and remembers the status code. -/
inductive ResponseWriter where
  | recorder (rr : ResponseRecorder)
  | logged (inner : ResponseWriter) (statusCode : Int)
deriving DecidableEq, Repr

namespace ResponseWriter

/-- The method `Header()`: the header map of the underlying response. -/
def Header : ResponseWriter → WeatherService.Header
  | recorder rr => rr.HeaderMap
  | logged inner _ => inner.Header

/-- Mutation of the map returned by `Header()`. -/
def modifyHeader (f : WeatherService.Header → WeatherService.Header) :
    ResponseWriter → ResponseWriter
  | recorder rr => recorder { rr with HeaderMap := f rr.HeaderMap }
  | logged inner code => logged (inner.modifyHeader f) code

/-- The method `WriteHeader`.  The recorder ignores every call after the first;
`responseWriter.WriteHeader` stores the code and forwards the call. -/
def WriteHeader : ResponseWriter → Int → ResponseWriter
  | recorder rr, code =>
    if rr.wroteHeader then recorder rr
    else recorder { rr with Code := code, wroteHeader := true, snapHeader := rr.HeaderMap }
  | logged inner _, code => logged (inner.WriteHeader code) code

/-- The method `Write`: the first write sends status 200 when no header was
written.  `responseWriter` does not define `Write`, the embedded writer
receives the call. -/
def Write : ResponseWriter → String → ResponseWriter
  | recorder rr, data =>
    let rr1 : ResponseRecorder :=
      if rr.wroteHeader then rr
      else { rr with Code := 200, wroteHeader := true, snapHeader := rr.HeaderMap }
    recorder { rr1 with Body := rr1.Body ++ data }
  | logged inner code, data => logged (inner.Write data) code

/-- The response underneath all wrappers. -/
def result : ResponseWriter → ResponseRecorder
  | recorder rr => rr
  | logged inner _ => inner.result

end ResponseWriter

/-- A fresh recorder, as made by `httptest.NewRecorder()`. -/
def NewRecorder : ResponseWriter := .recorder {}

def StatusOK : Int := 200
def StatusBadRequest : Int := 400
def StatusUnauthorized : Int := 401
def StatusTooManyRequests : Int := 429
def StatusInternalServerError : Int := 500
def StatusServiceUnavailable : Int := 503

/-- The function `http.Error`: plain-text headers, the status, then the
message followed by a newline. -/
def httpError (w : ResponseWriter) (error : String) (code : Int) : ResponseWriter :=
  let w1 := w.modifyHeader (fun h => Header.Del h "Content-Length")
  let w2 := w1.modifyHeader (fun h => Header.Set h "Content-Type" "text/plain; charset=utf-8")
  let w3 := w2.modifyHeader (fun h => Header.Set h "X-Content-Type-Options" "nosniff")
  (w3.WriteHeader code).Write (error ++ "\n")

/-! ## context, net/url, requests -/

/-- Keys of context values.  `APIKeyContextKey name` is a key of the type
declared in internal/middleware; `foreign` stands for keys of any other type. -/
inductive CtxKey where
  | APIKeyContextKey (name : String)
  | foreign (name : String)
deriving DecidableEq, Repr

/-- Values stored in a context: a Go `string`, or a value of another type. -/
inductive CtxValue where
  | string (s : String)
  | foreign (repr : String)
deriving DecidableEq, Repr

/-- The values carried by a `context.Context`, innermost first. -/
abbrev Context := List (CtxKey × CtxValue)

/-- The function `context.Background`. -/
def Context.Background : Context := []

/-- The function `context.WithValue`. -/
def Context.WithValue (parent : Context) (key : CtxKey) (val : CtxValue) : Context :=
  (key, val) :: parent

/-- The method `Value`: the innermost value stored under `key`, if any. -/
def Context.Value (ctx : Context) (key : CtxKey) : Option CtxValue :=
  ctx.lookup key

/-- The type assertion `v.(string)` with its `ok` flag. -/
def assertString : Option CtxValue → String × Bool
  | some (.string s) => (s, true)
  | _ => ("", false)

/-- A `url.Values`: parameter names with their values. -/
abbrev Values := List (String × List String)

/-- The method `Values.Get`: first value of the parameter, or the empty string. -/
def Values.Get (v : Values) (key : String) : String :=
  match v.lookup key with
  | some (x :: _) => x
  | _ => ""

/-- The method `Values.Set`: the parameter gets the single value `value`. -/
def Values.Set (v : Values) (key value : String) : Values :=
  (key, [value]) :: v.filter (fun kv => kv.1 != key)

/-- A hexadecimal digit, upper case. -/
def upperHex (n : Nat) : Char := "0123456789ABCDEF".toList.getD n '0'

/-- Escaping of one byte by `url.QueryEscape`. -/
def queryEscapeByte (b : UInt8) : List Char :=
  let c := Char.ofNat b.toNat
  if c.isAlphanum || c == '-' || c == '_' || c == '.' || c == '~' then [c]
  else if c == ' ' then ['+']
  else ['%', upperHex (b.toNat / 16), upperHex (b.toNat % 16)]

/-- The function `url.QueryEscape`, on the UTF-8 bytes of the string. -/
def QueryEscape (s : String) : String :=
  String.mk (s.toUTF8.toList.flatMap queryEscapeByte)

/-- The method `Values.Encode`: `key=value` pairs joined by `&`, sorted by key. -/
def Values.Encode (v : Values) : String :=
  let keys := ((v.map Prod.fst).eraseDups).insertionSort (fun a b => a < b ∨ a = b)
  let pairs := keys.flatMap (fun k =>
    ((v.lookup k).getD []).map (fun x => QueryEscape k ++ "=" ++ QueryEscape x))
  "&".intercalate pairs

/-- A parsed `url.URL`: `pre` is what `String()` writes before the query
(scheme, authority, escaped path) and `frag` what it writes after it (empty,
or `#` and the escaped fragment); neither is touched by the code. -/
structure URL where
  pre : String := ""
  Path : String := ""
  ForceQuery : Bool := false
  RawQuery : String := ""
  frag : String := ""
deriving DecidableEq, Repr

/-- The method `URL.String`. -/
def URL.String (u : URL) : String :=
  u.pre ++ (if u.ForceQuery ∨ u.RawQuery ≠ "" then "?" ++ u.RawQuery else "") ++ u.frag

/-- The parsing functions of net/url, which the code calls and this
development does not look into: `Parse` is `url.Parse`, `ParseQuery` is the
parsing done by `URL.Query()` (its error dropped). -/
structure NetURL where
  Parse : String → Except GoError URL
  ParseQuery : String → Values

/-- An inbound `http.Request`. -/
structure Request where
  Method : String := "GET"
  URL : URL := {}
  Header : Header := []
  ctx : Context := Context.Background

/-- The method `Request.Context`. -/
def Request.Context (r : Request) : Context := r.ctx

/-- The method `Request.WithContext`. -/
def Request.WithContext (r : Request) (ctx : WeatherService.Context) : Request := { r with ctx := ctx }

/-- An `http.Handler` acting on a world of type `σ` (the upstream network,
call counters of test doubles, ...): it returns the writer and world it leaves. -/
abbrev Handler (σ : Type) := ResponseWriter → Request → σ → ResponseWriter × σ

/-! ## internal/model, internal/config -/

structure MainInfo where
  Temp : Float64 := 0
deriving DecidableEq, Repr

structure WeatherCondition where
  Main : String := ""
deriving DecidableEq, Repr

structure WeatherData where
  Main : MainInfo := {}
  Weather : List WeatherCondition := []
deriving DecidableEq, Repr

structure WeatherResponse where
  WeatherCondition : String
  TempCategory : String
deriving DecidableEq, Repr

/-- AppConfig holds application configuration. -/
structure AppConfig where
  Port : String
  RateLimitPerSecond : Int
  OpenWeatherMapAPIURL : String
  UnitOfMeasurement : String
deriving DecidableEq, Repr

def DefaultPort : String := "8080"
def DefaultRateLimitPerSecond : Int := 5
def DefaultOpenWeatherMapURL : String := "https://api.openweathermap.org/data/2.5/weather"
def DefaultUnitsOfMeasurement : String := "imperial"

/-- NewAppConfig creates a new AppConfig with provided settings or defaults. -/
def NewAppConfig (port : String) (rateLimit : Int) (apiURL unit : String) : AppConfig :=
  { Port := if port = "" then DefaultPort else port
    RateLimitPerSecond := if rateLimit = 0 then DefaultRateLimitPerSecond else rateLimit
    OpenWeatherMapAPIURL := if apiURL = "" then DefaultOpenWeatherMapURL else apiURL
    UnitOfMeasurement := if unit = "" then DefaultUnitsOfMeasurement else unit }

/-- DefaultConfig creates a new AppConfig with default settings. -/
def DefaultConfig : AppConfig :=
  NewAppConfig DefaultPort DefaultRateLimitPerSecond DefaultOpenWeatherMapURL
    DefaultUnitsOfMeasurement

/-! ## internal/util/url_builder.go -/

/-- BuildOpenWeatherMapURL: the base URL with the four query parameters set. -/
def BuildOpenWeatherMapURL (url : NetURL) (baseURL apiKey lat lon unitOfMeasurement : String) :
    Except GoError String :=
  match url.Parse baseURL with
  | .error err => .error (errorfV "error parsing base URL: " err)
  | .ok parsedURL =>
    let query := url.ParseQuery parsedURL.RawQuery
    let query := query.Set "lat" lat
    let query := query.Set "lon" lon
    let query := query.Set "appid" apiKey
    let query := query.Set "units" unitOfMeasurement
    let parsedURL := { parsedURL with RawQuery := query.Encode }
    .ok parsedURL.String

/-! ## encoding/json: the encoder on a WeatherResponse -/

/-- A hexadecimal digit, lower case. -/
def lowerHex (n : Nat) : Char := "0123456789abcdef".toList.getD n '0'

/-- Encoding of one character inside a JSON string, as `json.Encoder` does it
(HTML escaping on). -/
def jsonEscapeChar (c : Char) : List Char :=
  if c == '\\' || c == '"' then ['\\', c]
  else if c == '\x08' then ['\\', 'b']
  else if c == '\x0c' then ['\\', 'f']
  else if c == '\n' then ['\\', 'n']
  else if c == '\r' then ['\\', 'r']
  else if c == '\t' then ['\\', 't']
  else if c.toNat < 32 || c == '<' || c == '>' || c == '&' then
    ['\\', 'u', '0', '0', lowerHex (c.toNat / 16), lowerHex (c.toNat % 16)]
  else if c.toNat = 8232 then "\\u2028".toList
  else if c.toNat = 8233 then "\\u2029".toList
  else [c]

/-- A Go string as a JSON string literal. -/
def jsonString (s : String) : String :=
  "\"" ++ String.mk (s.toList.flatMap jsonEscapeChar) ++ "\""

/-- What `json.NewEncoder(w).Encode(response)` writes: the object with the
two tagged fields in declaration order, then a newline. -/
def jsonEncode (response : WeatherResponse) : String :=
  "\x7b\"weatherCondition\":" ++ jsonString response.WeatherCondition ++
    ",\"tempCategory\":" ++ jsonString response.TempCategory ++ "\x7d\n"

/-! ## internal/repo/weatherapi.go -/

/-- Durations, in nanoseconds (`int64`). -/
abbrev Duration := Int

def Nanosecond : Duration := 1
def Second : Duration := 1000000000

/-- Define a constant for the timeout duration. -/
def requestTimeout : Duration := 5 * Second

/-- The outbound request built by `http.NewRequestWithContext`; `timeout` is
the deadline its context adds to that of the caller. -/
structure ClientRequest where
  Method : String
  URL : String
  ctx : Context
  timeout : Duration
deriving DecidableEq, Repr

/-- What `http.DefaultClient.Do` returns: a transport error, or a response
with its status code and body. -/
inductive DoResult where
  | err (e : GoError)
  | response (StatusCode : Int) (Body : String)
deriving DecidableEq, Repr

/-- The standard library and network as FetchWeatherData uses them, acting
on a world of type `σ`: the parsers of net/url, `http.NewRequestWithContext`,
`http.DefaultClient.Do`, and `json.Decoder.Decode` into a zero WeatherData
(the data it leaves, and its error). -/
structure Upstream (σ : Type) where
  url : NetURL
  NewRequest : ClientRequest → Except GoError ClientRequest
  Do : ClientRequest → σ → DoResult × σ
  Decode : String → WeatherData × Option GoError

/-- The interface `WeatherAPI`: the method FetchWeatherData with arguments
`ctx, lat, lon, openWeatherMapAPIURL, unitsOfMeasurement`, returning the Go
pair `(data, err)` and the world it leaves. -/
abbrev WeatherAPI (σ : Type) :=
  Context → String → String → String → String → σ → (WeatherData × Option GoError) × σ

/-- FetchWeatherData makes an HTTP request to the OpenWeather API to get
weather data for a specific latitude and longitude. -/
def FetchWeatherData {σ : Type} (up : Upstream σ) : WeatherAPI σ :=
  fun ctx lat lon openWeatherMapAPIURL unitsOfMeasurement world =>
  let data : WeatherData := {}
  let (apiKey, ok) := assertString (ctx.Value (CtxKey.APIKeyContextKey "apiKey"))
  if !ok || apiKey = "" then
    ((data, some (errorfW ErrBadRequest ": API key not found in context")), world)
  else
  match BuildOpenWeatherMapURL up.url openWeatherMapAPIURL apiKey lat lon unitsOfMeasurement with
  | .error err => ((data, some err), world)
  | .ok finalURL =>
  match up.NewRequest
      { Method := "GET", URL := finalURL, ctx := ctx, timeout := requestTimeout } with
  | .error err => ((data, some (errorfW ErrBadRequest (": " ++ err.Error))), world)
  | .ok request =>
  match up.Do request world with
  | (.err err, world1) =>
    if errorsIs err .DeadlineExceeded then ((data, some ErrTimeout), world1)
    else ((data, some (errorfW ErrServiceUnavailable (": " ++ err.Error))), world1)
  | (.response StatusCode Body, world1) =>
    if StatusCode ≠ StatusOK then
      if StatusCode = StatusUnauthorized then ((data, some ErrInvalidAPIKey), world1)
      else if StatusCode = StatusBadRequest then ((data, some ErrBadRequest), world1)
      else if StatusCode = StatusServiceUnavailable then
        ((data, some ErrServiceUnavailable), world1)
      else
        ((data, some (errorfW ErrUnexpectedStatusCode (": " ++ toString StatusCode))), world1)
    else
    match up.Decode Body with
    | (data1, some err) =>
      ((data1, some (errorfW ErrDecodingResponse (": " ++ err.Error))), world1)
    | (data1, none) => ((data1, none), world1)

/-! ## internal/handler/weather.go -/

/-- WeatherHandler handles weather-related HTTP requests by fetching weather
data and using the application configuration. -/
structure WeatherHandler (σ : Type) where
  Repo : WeatherAPI σ
  Config : AppConfig

/-- NewWeatherHandler creates a WeatherHandler with given weather data
repository and configuration. -/
def NewWeatherHandler {σ : Type} (repo : WeatherAPI σ) (cfg : AppConfig) : WeatherHandler σ :=
  { Repo := repo, Config := cfg }

/-- MapWeatherDataToResponse maps data from the OpenWeather API to the custom
response format. -/
def MapWeatherDataToResponse (data : WeatherData) (unitOfMeasurement : String) :
    WeatherResponse :=
  let condition :=
    match data.Weather with
    | [] => "Unknown"
    | first :: _ => first.Main
  let tempFahrenheit := ConvertTempToFahrenheit data.Main.Temp unitOfMeasurement
  let tempCategory := CategorizeTemperature tempFahrenheit
  { WeatherCondition := condition, TempCategory := tempCategory }

/-- handleWeatherDataError handles errors returned by FetchWeatherData. -/
def handleWeatherDataError (err : GoError) (w : ResponseWriter) : ResponseWriter :=
  let (status, message) :=
    if errorsIs err ErrInvalidAPIKey then
      (StatusUnauthorized, "Invalid API key.")
    else if errorsIs err ErrBadRequest then
      (StatusBadRequest, "Bad request to OpenWeather API.")
    else if errorsIs err ErrServiceUnavailable then
      (StatusServiceUnavailable, "OpenWeather API service is unavailable.")
    else if errorsIs err ErrUnexpectedStatusCode || errorsIs err ErrDecodingResponse then
      (StatusInternalServerError, "An error occurred while processing your request.")
    else
      (StatusInternalServerError, "An unexpected error occurred.")
  httpError w message status

/-- GetWeatherConditionByCoordinates handles HTTP requests for weather
conditions by coordinates. -/
def GetWeatherConditionByCoordinates {σ : Type} (url : NetURL) (h : WeatherHandler σ) :
    Handler σ :=
  fun w r world =>
  let query := url.ParseQuery r.URL.RawQuery
  let lat := query.Get "lat"
  let lon := query.Get "lon"
  if lat = "" ∨ lon = "" then
    (httpError w "Missing required query parameters: lat and/or lon" StatusBadRequest, world)
  else
  match h.Repo r.Context lat lon h.Config.OpenWeatherMapAPIURL h.Config.UnitOfMeasurement
      world with
  | ((_, some err), world1) => (handleWeatherDataError err w, world1)
  | ((weatherData, none), world1) =>
    let response := MapWeatherDataToResponse weatherData h.Config.UnitOfMeasurement
    let w1 := w.modifyHeader (fun hd => Header.Set hd "Content-Type" "application/json")
    (w1.Write (jsonEncode response), world1)

/-! ## internal/middleware/openweathermap_auth.go -/

/-- APIKeyHeader is the header key for the API key. -/
def APIKeyHeader : String := "X-API-Key"

/-- The message of the credential extractor. -/
def missingAPIKeyMessage : String :=
  "Missing \x27X-API-Key\x27 header. Include your OpenWeatherMap API key in the " ++
  "\x27X-API-Key\x27 header. See documentation for more details."

/-- OpenWeatherMapAuthMiddleware checks for the presence of an OpenWeatherMap
API key in the request header. -/
def OpenWeatherMapAuthMiddleware {σ : Type} (next : Handler σ) : Handler σ :=
  fun w r world =>
  let apiKey := r.Header.Get APIKeyHeader
  if apiKey = "" then
    (httpError w missingAPIKeyMessage StatusBadRequest, world)
  else
    let ctx := Context.WithValue r.Context (CtxKey.APIKeyContextKey "apiKey") (.string apiKey)
    next w (r.WithContext ctx) world

/-! ## package time, internal/middleware/ratelimit.go -/

/-- Readings of the monotonic clock, in nanoseconds. -/
abbrev Time := Int

/-- Wrap-around of `int64` arithmetic. -/
def wrap64 (x : Int) : Int := (x + 2 ^ 63) % 2 ^ 64 - 2 ^ 63

/-- The method `Time.Sub`: the difference, saturated to the range of `int64`. -/
def Time.Sub (t u : Time) : Duration := max (-(2 ^ 63)) (min (2 ^ 63 - 1) (t - u))

/-- The function `time.Since`, the clock reading `now`. -/
def Since (now t : Time) : Duration := Time.Sub now t

/-- The method `Duration.Seconds`: whole seconds plus the rest over `1e9`, in `float64`. -/
def Duration.Seconds (d : Duration) : Float64 :=
  let sec := Int.tdiv d Second
  let nsec := Int.tmod d Second
  Float64.ofInt sec + Float64.ofInt nsec / Float64.ofInt 1000000000

/-- The conversion `int(x)` of a `float64`: truncation toward zero.  For NaN,
the infinities and values outside `int64` the result is left to the
implementation by the language; the value produced on amd64 is taken. -/
def Float64.toInt : Float64 → Int
  | .fin s m e =>
    let a : Nat := if 0 ≤ e then m * 2 ^ e.toNat else m / 2 ^ (-e).toNat
    let v : Int := if s then -(a : Int) else a
    if v < -(2 ^ 63) ∨ 2 ^ 63 ≤ v then -(2 ^ 63) else v
  | _ => -(2 ^ 63)

/-- The variables captured by the handler of RateLimitMiddleware: the time of
the last admitted request and the limit duration. -/
structure RateLimiter where
  lastRequestTime : Time
  limitDuration : Duration
deriving DecidableEq, Repr

/-- RateLimitMiddleware limits the number of requests handled by the server
based on a configurable rate limit.  Here the construction, at clock reading
`now`; the division panics for a zero rate (`none`). -/
def RateLimitMiddleware (rateLimitPerSecond : Int) (now : Time) : Option RateLimiter :=
  if rateLimitPerSecond = 0 then none
  else some { lastRequestTime := now, limitDuration := Int.tdiv Second rateLimitPerSecond }

/-- The seconds announced to a rejected request. -/
def retryAfterSeconds (retryAfter : Duration) : Int :=
  wrap64 ((Duration.Seconds retryAfter).toInt + 1)

/-- The handler returned by RateLimitMiddleware, serving one request under the
mutex: `tSince` is the clock reading of `time.Since`, `tNow` that of the later
`time.Now()`.  It returns the limiter state it leaves with the writer and world. -/
def RateLimiter.ServeHTTP {σ : Type} (rl : RateLimiter) (next : Handler σ) (tSince tNow : Time)
    (w : ResponseWriter) (r : Request) (world : σ) : RateLimiter × ResponseWriter × σ :=
  let timeSinceLastRequest := Since tSince rl.lastRequestTime
  if timeSinceLastRequest < rl.limitDuration then
    let retryAfter := wrap64 (rl.limitDuration - timeSinceLastRequest)
    let w1 := w.modifyHeader
      (fun h => Header.Set h "Retry-After" (toString (retryAfterSeconds retryAfter)))
    (rl, httpError w1
      ("Rate limit exceeded. Please wait " ++ toString (retryAfterSeconds retryAfter) ++
        " seconds before retrying.") StatusTooManyRequests, world)
  else
    let rl1 := { rl with lastRequestTime := tNow }
    let (w1, world1) := next w r world
    (rl1, w1, world1)

/-! ## The specification side -/

/-- The six temperature categories. -/
def temperatureCategories : List String :=
  ["Freezing", "Cold", "Cool", "Mild", "Warm", "Hot"]

/-- The failure-mapping table of the specification: the status and message
for an error whose innermost error is `root`. -/
def failureMappingTable : GoError → Int × String
  | .sentinel .ErrInvalidAPIKey => (401, "Invalid API key.")
  | .sentinel .ErrBadRequest => (400, "Bad request to OpenWeather API.")
  | .sentinel .ErrServiceUnavailable => (503, "OpenWeather API service is unavailable.")
  | .sentinel .ErrUnexpectedStatusCode =>
    (500, "An error occurred while processing your request.")
  | .sentinel .ErrDecodingResponse => (500, "An error occurred while processing your request.")
  | .sentinel .ErrTimeout => (500, "An unexpected error occurred.")
  | _ => (500, "An unexpected error occurred.")

/-! ## Test doubles and sample inputs -/

/-- The pieces of a character list between occurrences of `sep`. -/
def splitOnChar (sep : Char) : List Char → List (List Char)
  | [] => [[]]
  | c :: cs =>
    match splitOnChar sep cs with
    | [] => [[]]
    | x :: xs => if c == sep then [] :: x :: xs else (c :: x) :: xs

/-- The function `strings.Cut` at a separator character. -/
def cutChar (sep : Char) : List Char → List Char × List Char
  | [] => ([], [])
  | c :: cs => if c == sep then ([], cs) else ((c :: (cutChar sep cs).1), (cutChar sep cs).2)

/-- Append `value` to the values of `key`. -/
def Values.Add : Values → String → String → Values
  | [], key, value => [(key, [value])]
  | (k, vs) :: rest, key, value =>
    if k = key then (k, vs ++ [value]) :: rest else (k, vs) :: Values.Add rest key value

/-- The result of `url.ParseQuery` on a query string written without `%`,
`+` and `;`, where nothing has to be unescaped: the non-empty pieces between
`&`, cut at their first `=`. -/
def parseQueryPlain (query : String) : Values :=
  (splitOnChar '&' query.toList).foldl
    (fun m piece =>
      if piece = [] then m
      else Values.Add m (String.mk (cutChar '=' piece).1) (String.mk (cutChar '=' piece).2))
    []

/-- Whether the text after the host is empty or a colon followed by digits
(`validOptionalPort` of net/url). -/
def validOptionalPort : List Char → Bool
  | [] => true
  | c :: cs => c == ':' && cs.all Char.isDigit

/-- The result of `url.Parse` on the two shapes of base URL used below,
written without query, fragment, userinfo and escapes: `scheme://host/path`
with a registered name as host, and `scheme://[v6]rest` where `rest` has to be
a valid optional port. -/
def parsePlain (rawURL : String) : Except GoError URL :=
  let afterBracket := (cutChar ']' rawURL.toList).2
  if rawURL.toList.contains '[' && !validOptionalPort afterBracket then
    .error (.wrap ("parse \"" ++ rawURL ++ "\": invalid port \"" ++ String.mk afterBracket ++
      "\" after host") (.plain ("invalid port \"" ++ String.mk afterBracket ++ "\" after host")))
  else .ok { pre := rawURL }

/-- The net/url parsers on the plain inputs of the examples. -/
def plainURL : NetURL := { Parse := parsePlain, ParseQuery := parseQueryPlain }

/-- MockWeatherAPI of weather_test.go: the world is the number of calls made
to the mock, the answer that of `FetchFunc`. -/
def MockWeatherAPI
    (FetchFunc : Context → String → String → String → String → WeatherData × Option GoError) :
    WeatherAPI Nat :=
  fun ctx lat lon openWeatherMapAPIURL unitsOfMeasurement calls =>
    (FetchFunc ctx lat lon openWeatherMapAPIURL unitsOfMeasurement, calls + 1)

/-- The configuration of the handler tests. -/
def testConfig : AppConfig :=
  { Port := "", RateLimitPerSecond := 0, OpenWeatherMapAPIURL := "http://example.com",
    UnitOfMeasurement := "standard" }

/-- The upstream answer of the success test: 280.32 kelvin, clear sky. -/
def clearSkyData : WeatherData :=
  { Main := { Temp := Float64.ofDecimal 28032 100 }, Weather := [{ Main := "Clear" }] }

/-- The handler of the success test. -/
def successHandler : WeatherHandler Nat :=
  NewWeatherHandler (MockWeatherAPI (fun _ _ _ _ _ => (clearSkyData, none))) testConfig

/-- The request `GET path?query`. -/
def getRequest (path query : String) : Request :=
  { Method := "GET", URL := { pre := path, Path := path, RawQuery := query } }

/-- A handler that counts its invocations in the world and answers 200, as
the test handlers of the middleware tests do. -/
def countingHandler : Handler Nat :=
  fun w _ calls => (w.WriteHeader StatusOK, calls + 1)

/-- A stand-in for the network, as the mock servers of weatherapi_test.go:
every request gets the answer `outcome`, the world is the number of requests
sent, request construction succeeds, and the body decodes as `decode` says. -/
def mockUpstream (outcome : DoResult) (decode : String → WeatherData × Option GoError) :
    Upstream Nat :=
  { url := plainURL
    NewRequest := fun request => .ok request
    Do := fun _ sent => (outcome, sent + 1)
    Decode := decode }

/-- A context carrying the credential, as the tests build it. -/
def contextWithKey (apiKey : String) : Context :=
  Context.WithValue Context.Background (CtxKey.APIKeyContextKey "apiKey") (.string apiKey)

/-- A decoder for the stand-in: the one well-formed body of the tests decodes
to `clearSkyData`, everything else is a syntax error. -/
def mockDecode (body : String) : WeatherData × Option GoError :=
  if body =
    "\x7b\"main\":\x7b\"temp\":280.32\x7d,\"weather\":[\x7b\"main\":\"Clear\"\x7d]\x7d"
  then (clearSkyData, none)
  else ({}, some (.plain "unexpected EOF"))

/-- The specification's `ceil(d)` of a duration in whole seconds. -/
def ceilSeconds (d : Duration) : Int := Int.ceil ((d : ℚ) / 1000000000)

/-- The keys in the order in which `Values.Encode` writes them. -/
def Values.sortedKeys (v : Values) : List String :=
  ((v.map Prod.fst).eraseDups).insertionSort (fun a b => a < b ∨ a = b)

/-- The relation by which `Values.Encode` sorts the keys is total. -/
instance leOrEq_total : IsTotal String (fun a b => a < b ∨ a = b) :=
  ⟨fun a b => by
    rcases lt_trichotomy a b with h | h | h
    · exact Or.inl (Or.inl h)
    · exact Or.inl (Or.inr h)
    · exact Or.inr (Or.inl h)⟩

/-- The relation by which `Values.Encode` sorts the keys is transitive. -/
instance leOrEq_trans : IsTrans String (fun a b => a < b ∨ a = b) :=
  ⟨fun a b c hab hbc => by
    rcases hab with h | h
    · rcases hbc with h' | h'
      · exact Or.inl (lt_trans h h')
      · exact Or.inl (h' ▸ h)
    · rcases hbc with h' | h'
      · exact Or.inl (h ▸ h')
      · exact Or.inr (h.trans h')⟩

/-- The four parameter names set by the URL builder. -/
def builderParams : List String := ["lat", "lon", "appid", "units"]

/-- The result of `url.Parse` on a URL `scheme://host/path?query` written
without fragment, userinfo and escapes: the query is what follows the first
`?`, the rest is written back unchanged by `String()`. -/
def parsePlainQuery (rawURL : String) : Except GoError URL :=
  .ok { pre := String.mk (cutChar '?' rawURL.toList).1
        RawQuery := String.mk (cutChar '?' rawURL.toList).2 }

/-- The net/url parsers on plain URLs that carry a query. -/
def plainQueryURL : NetURL := { Parse := parsePlainQuery, ParseQuery := parseQueryPlain }

/-! ## Runs of the rate limiter -/

/-- One request as the handler of the rate limiter receives it: the clock
reading of `time.Since`, that of the later `time.Now()`, the writer and the
request. -/
structure Arrival where
  tSince : Time
  tNow : Time
  w : ResponseWriter
  r : Request

/-- One served request: the arrival, the limiter state found and the state left. -/
structure Served where
  arrival : Arrival
  before : RateLimiter
  after : RateLimiter

/-- The requests of a sequence served one after the other (the mutex admits
one at a time), each on the state left by the one before. -/
def RateLimiter.run {σ : Type} (next : Handler σ) :
    RateLimiter → List Arrival → σ → List Served
  | _, [], _ => []
  | rl, a :: rest, world =>
    { arrival := a, before := rl, after := (rl.ServeHTTP next a.tSince a.tNow a.w a.r world).1 } ::
      RateLimiter.run next (rl.ServeHTTP next a.tSince a.tNow a.w a.r world).1 rest
        (rl.ServeHTTP next a.tSince a.tNow a.w a.r world).2.2

/-- The clock readings of a sequence of requests, in the order they are taken. -/
def clockReadings : List Arrival → List Time
  | [] => []
  | a :: rest => a.tSince :: a.tNow :: clockReadings rest

/-- A served request is admitted when the time since the last request is not
below the limit: the branch that stores the time and calls the next handler. -/
def Served.admitted (s : Served) : Prop :=
  ¬ (Since s.arrival.tSince s.before.lastRequestTime < s.before.limitDuration)

/-- The request arriving with clock readings `tSince` and `tNow`, on a fresh recorder. -/
def arrivalAt (tSince tNow : Time) : Arrival :=
  { tSince := tSince, tNow := tNow, w := NewRecorder, r := getRequest "/" "" }

/-! ## The mutex of the rate limiter -/

/-- The statements of the handler of RateLimitMiddleware, as far as the
mutex is concerned. -/
inductive LimiterStep where
  | Lock
  | Unlock
  | Since
  | SetRetryAfter
  | Error
  | StoreNow
  | ServeNext
deriving DecidableEq, Repr

/-- The statements the handler executes for one request, in order:
`mutex.Lock()`, `time.Since`, then the rejection (header and `http.Error`) or
the admission (`lastRequestTime = time.Now()` and `next.ServeHTTP`); the
deferred `mutex.Unlock()` runs when the handler returns. -/
def RateLimiter.steps (rl : RateLimiter) (tSince : Time) : List LimiterStep :=
  [LimiterStep.Lock, LimiterStep.Since] ++
    (if Since tSince rl.lastRequestTime < rl.limitDuration then
      [LimiterStep.SetRetryAfter, LimiterStep.Error]
    else [LimiterStep.StoreNow, LimiterStep.ServeNext]) ++
    [LimiterStep.Unlock]

/-- Whether the mutex is held when the next handler is called (`none` when
it is not called), the mutex being held or not at the start as `held` says. -/
def lockHeldAtNext : Bool → List LimiterStep → Option Bool
  | _, [] => none
  | _, LimiterStep.Lock :: rest => lockHeldAtNext true rest
  | _, LimiterStep.Unlock :: rest => lockHeldAtNext false rest
  | held, LimiterStep.ServeNext :: _ => some held
  | held, _ :: rest => lockHeldAtNext held rest

/-! ## internal/middleware/logger.go, cmd/server/main.go -/

/-- NewResponseWriter creates a new response writer to capture the status
code, which defaults to 200. -/
def newResponseWriter (w : ResponseWriter) : ResponseWriter := .logged w StatusOK

/-- The field `statusCode` of a `responseWriter`. -/
def ResponseWriter.statusCode : ResponseWriter → Int
  | .logged _ code => code
  | .recorder rr => rr.Code

/-- The writer embedded in a `responseWriter`. -/
def ResponseWriter.embedded : ResponseWriter → ResponseWriter
  | .logged inner _ => inner
  | .recorder rr => .recorder rr

/-- The arguments of the `log.Printf` call of the access logger: method,
path, status and duration (the line is "Method: %s, URI: %s, Status: %d,
Duration: %v" filled with them). -/
structure AccessLog where
  Method : String
  URI : String
  Status : Int
  Duration : Duration
deriving DecidableEq, Repr

/-- LoggingMiddleware: `tStart` is the clock reading of `time.Now()`,
`tSince` that of `time.Since(start)`; the world gains the lines written by the
standard logger. -/
def LoggingMiddleware {σ : Type} (next : Handler σ) (tStart tSince : Time) :
    Handler (σ × List AccessLog) :=
  fun w r world =>
  let start := tStart
  let wrappedWriter := newResponseWriter w
  let served := next wrappedWriter r world.1
  let line : AccessLog :=
    { Method := r.Method
      URI := r.URL.Path
      Status := served.1.statusCode
      Duration := Since tSince start }
  (served.1.embedded, (served.2, world.2 ++ [line]))

/-- The gate chain of `main`: `router.Use` is called with the rate limiter,
the credential extractor and the logger in this order, and the router wraps
the handler of a matched route with the first one outermost; here one request
through the chain, with the clock readings of the limiter and of the logger. -/
def serverChain {σ : Type} (rl : RateLimiter) (handler : Handler σ)
    (tSince tNow tStart tEnd : Time) (w : ResponseWriter) (r : Request)
    (world : σ × List AccessLog) : RateLimiter × ResponseWriter × (σ × List AccessLog) :=
  rl.ServeHTTP (OpenWeatherMapAuthMiddleware (LoggingMiddleware handler tStart tEnd))
    tSince tNow w r world

/-- What a handler does with the writer it is given, call by call: it reads
the header map, changes it, calls `WriteHeader` or `Write`, and in the end
leaves a world. -/
inductive WriterProg (σ : Type) where
  | done (world : σ)
  | header (k : Header → WriterProg σ)
  | setHeader (f : Header → Header) (k : WriterProg σ)
  | writeHeader (code : Int) (k : WriterProg σ)
  | write (data : String) (k : WriterProg σ)

/-- The calls of a handler applied to a writer. -/
def WriterProg.run {σ : Type} : WriterProg σ → ResponseWriter → ResponseWriter × σ
  | .done world, w => (w, world)
  | .header k, w => (k w.Header).run w
  | .setHeader f k, w => k.run (w.modifyHeader f)
  | .writeHeader code k, w => k.run (w.WriteHeader code)
  | .write data k, w => k.run (w.Write data)

/-- The codes a handler passes to `WriteHeader`, in the order of the calls. -/
def WriterProg.codes {σ : Type} : WriterProg σ → ResponseWriter → List Int
  | .done _, _ => []
  | .header k, w => (k w.Header).codes w
  | .setHeader f k, w => k.codes (w.modifyHeader f)
  | .writeHeader code k, w => code :: k.codes (w.WriteHeader code)
  | .write data k, w => k.codes (w.Write data)

/-- The handler that acts on its writer as the program chosen by the request
and the world says. -/
def Handler.ofProg {σ : Type} (prog : Request → σ → WriterProg σ) : Handler σ :=
  fun w r world => (prog r world).run w

/-- The test handler of logger_test.go: it writes the status 404. -/
def notFoundProg : Request → Nat → WriterProg Nat :=
  fun _ calls => .writeHeader 404 (.done (calls + 1))

/-! # Properties -/

/-! ## float64: order and exact values -/

namespace Float64

theorem shl_cast (m : Nat) (k : Int) (hk : 0 ≤ k) :
    ((shl m k : Nat) : ℚ) = (m : ℚ) * (2 : ℚ) ^ k := by
  unfold shl
  push_cast
  congr 1
  rw [← zpow_natCast, Int.toNat_of_nonneg hk]

theorem scaled_cast (s : Bool) (m : Nat) (e k : Int) (h : k ≤ e) :
    ((scaled s m e k : Int) : ℚ) = toRat (fin s m e) * ((2 : ℚ) ^ k)⁻¹ := by
  have h2 : (2 : ℚ) ≠ 0 := by norm_num
  have hc : ((shl m (e - k) : Nat) : ℚ) = (m : ℚ) * 2 ^ e * ((2 : ℚ) ^ k)⁻¹ := by
    rw [shl_cast m (e - k) (by omega), zpow_sub₀ h2, div_eq_mul_inv, mul_assoc]
  cases s <;> simp [scaled, toRat, hc]

/-- On finite values `<` is the order of the exact values. -/
theorem lt_fin_iff (s : Bool) (m : Nat) (e : Int) (t : Bool) (n : Nat) (f : Int) :
    lt (fin s m e) (fin t n f) = true ↔ toRat (fin s m e) < toRat (fin t n f) := by
  have hp : (0 : ℚ) < ((2 : ℚ) ^ (min e f))⁻¹ := inv_pos.mpr (zpow_pos (by norm_num) _)
  simp only [lt, decide_eq_true_eq]
  rw [← @Int.cast_lt ℚ, scaled_cast s m e _ (min_le_left e f),
    scaled_cast t n f _ (min_le_right e f)]
  exact mul_lt_mul_right hp

/-- On finite values `<=` is the order of the exact values. -/
theorem le_fin_iff (s : Bool) (m : Nat) (e : Int) (t : Bool) (n : Nat) (f : Int) :
    le (fin s m e) (fin t n f) = true ↔ toRat (fin s m e) ≤ toRat (fin t n f) := by
  have hp : (0 : ℚ) < ((2 : ℚ) ^ (min e f))⁻¹ := inv_pos.mpr (zpow_pos (by norm_num) _)
  simp only [le, decide_eq_true_eq]
  rw [← @Int.cast_le ℚ, scaled_cast s m e _ (min_le_left e f),
    scaled_cast t n f _ (min_le_right e f)]
  exact mul_le_mul_right hp

theorem lit32 : (32 : Float64) = fin false 4503599627370496 (-47) := by decide!
theorem lit50 : (50 : Float64) = fin false 7036874417766400 (-47) := by decide!
theorem lit68 : (68 : Float64) = fin false 4785074604081152 (-46) := by decide!
theorem lit77 : (77 : Float64) = fin false 5418393301680128 (-46) := by decide!
theorem lit95 : (95 : Float64) = fin false 6685030696878080 (-46) := by decide!

theorem toRat_lit32 : toRat (32 : Float64) = 32 := by
  rw [lit32]; norm_num [toRat, zpow_neg]
theorem toRat_lit50 : toRat (50 : Float64) = 50 := by
  rw [lit50]; norm_num [toRat, zpow_neg]
theorem toRat_lit68 : toRat (68 : Float64) = 68 := by
  rw [lit68]; norm_num [toRat, zpow_neg]
theorem toRat_lit77 : toRat (77 : Float64) = 77 := by
  rw [lit77]; norm_num [toRat, zpow_neg]
theorem toRat_lit95 : toRat (95 : Float64) = 95 := by
  rw [lit95]; norm_num [toRat, zpow_neg]

end Float64

open Float64

/-! ## Temperature classifier and unit converter -/

/-- The classifier on a finite value, as a chain of tests on its exact value. -/
theorem categorize_fin (s : Bool) (m : Nat) (e : Int) :
    CategorizeTemperature (fin s m e) =
      if toRat (fin s m e) ≤ 32 then "Freezing"
      else if toRat (fin s m e) ≤ 50 then "Cold"
      else if toRat (fin s m e) ≤ 68 then "Cool"
      else if toRat (fin s m e) ≤ 77 then "Mild"
      else if toRat (fin s m e) ≤ 95 then "Warm"
      else "Hot" := by
  have h32 := toRat_lit32
  have h50 := toRat_lit50
  have h68 := toRat_lit68
  have h77 := toRat_lit77
  have h95 := toRat_lit95
  rw [lit32] at h32; rw [lit50] at h50; rw [lit68] at h68; rw [lit77] at h77; rw [lit95] at h95
  generalize hv : toRat (fin s m e) = v
  unfold CategorizeTemperature
  simp only [Float64.gt, lit32, lit50, lit68, lit77, lit95, Bool.and_eq_true, lt_fin_iff,
    le_fin_iff, h32, h50, h68, h77, h95, hv]
  by_cases h1 : v ≤ 32 <;> by_cases h2 : v ≤ 50 <;> by_cases h3 : v ≤ 68 <;>
    by_cases h4 : v ≤ 77 <;> by_cases h5 : v ≤ 95 <;>
    first
    | (exfalso; linarith)
    | (have g1 := not_le.mp h1
       simp [h1, h2, h3, h4, h5, g1, lt_of_lt_of_le])
    | simp [h1, h2, h3, h4, h5, not_le.mp, not_lt.mpr]

/-- Every result of the classifier is one of the six categories. -/
theorem categorize_mem (t : Float64) : CategorizeTemperature t ∈ temperatureCategories := by
  unfold CategorizeTemperature temperatureCategories
  split_ifs <;> simp

/-- C1: for every temperature the classifier returns one of the six labels
Freezing, Cold, Cool, Mild, Warm, Hot; on a finite temperature of exact value
`v` the label is chosen by the upper-inclusive ranges `v ≤ 32`, `32 < v ≤ 50`,
`50 < v ≤ 68`, `68 < v ≤ 77`, `77 < v ≤ 95`, `95 < v`, minus infinity is
Freezing and plus infinity Hot; and 32 is Freezing, 32.0001 and 50 are Cold,
68 is Cool, 77 is Mild, 95 is Warm, 95.0001 is Hot. -/
theorem categorizeTemperature_ranges :
    (∀ t : Float64, CategorizeTemperature t ∈ temperatureCategories) ∧
    (∀ (s : Bool) (m : Nat) (e : Int),
      (toRat (fin s m e) ≤ 32 → CategorizeTemperature (fin s m e) = "Freezing") ∧
      (32 < toRat (fin s m e) ∧ toRat (fin s m e) ≤ 50 →
        CategorizeTemperature (fin s m e) = "Cold") ∧
      (50 < toRat (fin s m e) ∧ toRat (fin s m e) ≤ 68 →
        CategorizeTemperature (fin s m e) = "Cool") ∧
      (68 < toRat (fin s m e) ∧ toRat (fin s m e) ≤ 77 →
        CategorizeTemperature (fin s m e) = "Mild") ∧
      (77 < toRat (fin s m e) ∧ toRat (fin s m e) ≤ 95 →
        CategorizeTemperature (fin s m e) = "Warm") ∧
      (95 < toRat (fin s m e) → CategorizeTemperature (fin s m e) = "Hot")) ∧
    CategorizeTemperature (inf true) = "Freezing" ∧
    CategorizeTemperature (inf false) = "Hot" ∧
    CategorizeTemperature 32 = "Freezing" ∧
    CategorizeTemperature (ofDecimal 320001 10000) = "Cold" ∧
    CategorizeTemperature 50 = "Cold" ∧
    CategorizeTemperature 68 = "Cool" ∧
    CategorizeTemperature 77 = "Mild" ∧
    CategorizeTemperature 95 = "Warm" ∧
    CategorizeTemperature (ofDecimal 950001 10000) = "Hot" := by
  refine ⟨categorize_mem, ?_, by decide!, by decide!, by decide!, by decide!, by decide!,
    by decide!, by decide!, by decide!, by decide!⟩
  intro s m e
  rw [categorize_fin]
  generalize toRat (fin s m e) = v
  refine ⟨fun h => by simp [h], fun h => ?_, fun h => ?_, fun h => ?_, fun h => ?_, fun h => ?_⟩
  · rw [if_neg (by linarith [h.1]), if_pos h.2]
  · rw [if_neg (by linarith [h.1]), if_neg (by linarith [h.1]), if_pos h.2]
  · rw [if_neg (by linarith [h.1]), if_neg (by linarith [h.1]), if_neg (by linarith [h.1]),
      if_pos h.2]
  · rw [if_neg (by linarith [h.1]), if_neg (by linarith [h.1]), if_neg (by linarith [h.1]),
      if_neg (by linarith [h.1]), if_pos h.2]
  · rw [if_neg (by linarith), if_neg (by linarith), if_neg (by linarith),
      if_neg (by linarith), if_neg (by linarith)]

/-- C1 at 45 degrees, a finite value between 32 and 50: the label is Cold. -/
theorem categorizeTemperature_ranges_witness :
    (32 < toRat (fin false 6333186975989760 (-47)) ∧
      toRat (fin false 6333186975989760 (-47)) ≤ 50) ∧
    CategorizeTemperature (fin false 6333186975989760 (-47)) = "Cold" :=
  ⟨by norm_num [toRat, zpow_neg],
    (categorizeTemperature_ranges.2.1 false 6333186975989760 (-47)).2.1
      (by norm_num [toRat, zpow_neg])⟩

/-- C2: the converter returns `t*9/5+32` for the unit "metric",
`(t-273.15)*9/5+32` for "standard" (both in float64 arithmetic, evaluated
left to right as in the source) and `t` itself for every other unit,
"imperial" and unrecognised ones included; 0 metric and 273.15 standard
are exactly 32. -/
theorem convertTempToFahrenheit_spec :
    (∀ t : Float64, ConvertTempToFahrenheit t "metric" = t * 9 / 5 + 32) ∧
    (∀ t : Float64, ConvertTempToFahrenheit t "standard" = (t - kelvinOffset) * 9 / 5 + 32) ∧
    (∀ (t : Float64) (u : String), u ≠ "metric" → u ≠ "standard" →
      ConvertTempToFahrenheit t u = t) ∧
    (∀ t : Float64, ConvertTempToFahrenheit t "imperial" = t) ∧
    (∀ t : Float64, ConvertTempToFahrenheit t "unknown-unit" = t) ∧
    ConvertTempToFahrenheit 0 "metric" = 32 ∧
    ConvertTempToFahrenheit (ofDecimal 27315 100) "standard" = 32 := by
  refine ⟨fun t => ?_, fun t => ?_, fun t u h1 h2 => ?_, fun t => ?_, fun t => ?_,
    by decide!, by decide!⟩
  · simp [ConvertTempToFahrenheit]
  · simp [ConvertTempToFahrenheit]
  · simp [ConvertTempToFahrenheit, h1, h2]
  · simp [ConvertTempToFahrenheit]
  · simp [ConvertTempToFahrenheit]

/-- C2 at the unit "kelvin", which is neither "metric" nor "standard":
100 is returned unchanged. -/
theorem convertTempToFahrenheit_spec_witness :
    ConvertTempToFahrenheit 100 "kelvin" = 100 :=
  convertTempToFahrenheit_spec.2.2.1 100 "kelvin" (by decide) (by decide)

/-! ## Response writers -/

/-- On a recorder that has written nothing `http.Error` sets the status and
appends the message and a newline to the body. -/
theorem httpError_recorder (rr : ResponseRecorder) (h : rr.wroteHeader = false)
    (msg : String) (code : Int) :
    (httpError (.recorder rr) msg code).result.Code = code ∧
    (httpError (.recorder rr) msg code).result.Body = rr.Body ++ (msg ++ "\n") := by
  simp [httpError, ResponseWriter.modifyHeader, ResponseWriter.WriteHeader,
    ResponseWriter.Write, ResponseWriter.result, h]

/-- On a fresh recorder the response of `http.Error` is the status and the
message followed by a newline. -/
theorem httpError_new (msg : String) (code : Int) :
    (httpError NewRecorder msg code).result.Code = code ∧
    (httpError NewRecorder msg code).result.Body = msg ++ "\n" := by
  have h := httpError_recorder {} rfl msg code
  simpa [NewRecorder] using h

/-! ## The request handler -/

/-- C3: when lat and lon are both non-empty and the upstream client returns
the data `d` without error, the handler answers 200 with content type
application/json, the body being the JSON object (as `Encode` writes it,
newline-terminated) whose weatherCondition is the label of the first
condition of `d`, or "Unknown" when there is none, and whose tempCategory is
the category of the temperature converted from the configured unit; for 280.32,
["Clear"] and "standard" the body is the object with "Clear" and "Cold". -/
theorem getWeather_success {σ : Type} (url : NetURL) (h : WeatherHandler σ) (r : Request)
    (world world1 : σ) (d : WeatherData)
    (hlat : (url.ParseQuery r.URL.RawQuery).Get "lat" ≠ "")
    (hlon : (url.ParseQuery r.URL.RawQuery).Get "lon" ≠ "")
    (hrepo : h.Repo r.Context ((url.ParseQuery r.URL.RawQuery).Get "lat")
      ((url.ParseQuery r.URL.RawQuery).Get "lon") h.Config.OpenWeatherMapAPIURL
      h.Config.UnitOfMeasurement world = ((d, none), world1)) :
    (GetWeatherConditionByCoordinates url h NewRecorder r world).1.result.Code = 200 ∧
    (GetWeatherConditionByCoordinates url h NewRecorder r world).1.result.Body =
      jsonEncode
        { WeatherCondition := ((d.Weather.head?).map WeatherCondition.Main).getD "Unknown"
          TempCategory := CategorizeTemperature
            (ConvertTempToFahrenheit d.Main.Temp h.Config.UnitOfMeasurement) } ∧
    (GetWeatherConditionByCoordinates url h NewRecorder r world).1.result.snapHeader.Get
      "Content-Type" = "application/json" ∧
    (GetWeatherConditionByCoordinates url h NewRecorder r world).2 = world1 ∧
    (d = { Main := { Temp := ofDecimal 28032 100 }, Weather := [{ Main := "Clear" }] } →
      h.Config.UnitOfMeasurement = "standard" →
      (GetWeatherConditionByCoordinates url h NewRecorder r world).1.result.Body =
        "\x7b\"weatherCondition\":\"Clear\",\"tempCategory\":\"Cold\"\x7d\n") := by
  have hbody : (GetWeatherConditionByCoordinates url h NewRecorder r world).1.result.Body =
      jsonEncode
        { WeatherCondition := ((d.Weather.head?).map WeatherCondition.Main).getD "Unknown"
          TempCategory := CategorizeTemperature
            (ConvertTempToFahrenheit d.Main.Temp h.Config.UnitOfMeasurement) } := by
    simp only [GetWeatherConditionByCoordinates, hlat, hlon, or_self, if_false, hrepo]
    cases hw : d.Weather <;>
      simp [MapWeatherDataToResponse, hw, NewRecorder, ResponseWriter.modifyHeader,
        ResponseWriter.Write, ResponseWriter.result]
  refine ⟨?_, hbody, ?_, ?_, ?_⟩
  · simp [GetWeatherConditionByCoordinates, hlat, hlon, hrepo, NewRecorder,
      ResponseWriter.modifyHeader, ResponseWriter.Write, ResponseWriter.result]
  · simp only [GetWeatherConditionByCoordinates, hlat, hlon, or_self, if_false, hrepo]
    simp only [NewRecorder, ResponseWriter.modifyHeader, ResponseWriter.Write,
      ResponseWriter.result]
    decide!
  · simp [GetWeatherConditionByCoordinates, hlat, hlon, hrepo]
  · intro hd hu
    rw [hbody, hd, hu]
    decide!

/-- C3 on the success test: the mock returns 280.32 and ["Clear"], the unit is
"standard", the request is `/weather?lat=35&lon=139`. -/
theorem getWeather_success_witness :
    (GetWeatherConditionByCoordinates plainURL successHandler NewRecorder
      (getRequest "/weather" "lat=35&lon=139") 0).1.result.Code = 200 ∧
    (GetWeatherConditionByCoordinates plainURL successHandler NewRecorder
      (getRequest "/weather" "lat=35&lon=139") 0).1.result.Body =
        "\x7b\"weatherCondition\":\"Clear\",\"tempCategory\":\"Cold\"\x7d\n" :=
  have h := getWeather_success plainURL successHandler (getRequest "/weather" "lat=35&lon=139")
    0 1 clearSkyData (by decide!) (by decide!) (by decide!)
  ⟨h.1, h.2.2.2.2 rfl rfl⟩

/-- C4: when lat or lon is absent or empty the handler answers 400 with the
body exactly "Missing required query parameters: lat and/or lon\n"; the world
is left as it was and the answer is `http.Error` on the writer, whatever the
upstream client is: the client is not invoked. -/
theorem getWeather_missingParams {σ : Type} (url : NetURL) (h : WeatherHandler σ)
    (w : ResponseWriter) (r : Request) (world : σ)
    (hmiss : (url.ParseQuery r.URL.RawQuery).Get "lat" = "" ∨
      (url.ParseQuery r.URL.RawQuery).Get "lon" = "") :
    GetWeatherConditionByCoordinates url h w r world =
      (httpError w "Missing required query parameters: lat and/or lon" 400, world) ∧
    (∀ repo : WeatherAPI σ,
      GetWeatherConditionByCoordinates url { h with Repo := repo } w r world =
        GetWeatherConditionByCoordinates url h w r world) ∧
    (GetWeatherConditionByCoordinates url h NewRecorder r world).1.result.Code = 400 ∧
    (GetWeatherConditionByCoordinates url h NewRecorder r world).1.result.Body =
      "Missing required query parameters: lat and/or lon\n" ∧
    (GetWeatherConditionByCoordinates url h NewRecorder r world).2 = world := by
  have key : ∀ (h0 : WeatherHandler σ) (w0 : ResponseWriter),
      GetWeatherConditionByCoordinates url h0 w0 r world =
        (httpError w0 "Missing required query parameters: lat and/or lon" 400, world) := by
    intro h0 w0
    simp only [GetWeatherConditionByCoordinates, hmiss, if_true, StatusBadRequest]
  refine ⟨key h w, fun repo => by rw [key, key], ?_, ?_, ?_⟩
  · rw [key]; exact (httpError_new _ _).1
  · rw [key]; exact (httpError_new _ _).2
  · rw [key]

/-- C4 on the request `/weather?lon=139` of the missing-parameter test, with
the counting mock: 400, the fixed body, and no call counted. -/
theorem getWeather_missingParams_witness :
    (GetWeatherConditionByCoordinates plainURL successHandler NewRecorder
      (getRequest "/weather" "lon=139") 0).1.result.Code = 400 ∧
    (GetWeatherConditionByCoordinates plainURL successHandler NewRecorder
      (getRequest "/weather" "lon=139") 0).1.result.Body =
        "Missing required query parameters: lat and/or lon\n" ∧
    (GetWeatherConditionByCoordinates plainURL successHandler NewRecorder
      (getRequest "/weather" "lon=139") 0).2 = 0 :=
  (getWeather_missingParams plainURL successHandler NewRecorder
    (getRequest "/weather" "lon=139") 0 (Or.inl (by decide!))).2.2

/-! ## Errors -/

/-- `errors.Is` against a failure kind looks at the innermost error only. -/
theorem errorsIs_sentinel (err : GoError) (k : FailureKind) :
    errorsIs err (.sentinel k) = decide (err.root = .sentinel k) := by
  induction err with
  | wrap msg inner ih => simp [errorsIs, GoError.root, ih]
  | sentinel j => simp [errorsIs, GoError.root]
  | DeadlineExceeded => simp [errorsIs, GoError.root]
  | plain msg => simp [errorsIs, GoError.root]

/-- The innermost error of a chain is not itself a wrapper. -/
theorem root_ne_wrap (err : GoError) (msg : String) (inner : GoError) :
    err.root ≠ .wrap msg inner := by
  induction err with
  | wrap m i ih => simpa [GoError.root] using ih
  | sentinel j => simp [GoError.root]
  | DeadlineExceeded => simp [GoError.root]
  | plain m => simp [GoError.root]

/-- C5: for every error, bare or wrapped with detail, the handler writes with
`http.Error` the status and message the failure-mapping table gives for the
innermost error: 401 "Invalid API key." for Invalid-Credential, 400 "Bad
request to OpenWeather API." for Bad-Request, 503 "OpenWeather API service is
unavailable." for Service-Unavailable, 500 "An error occurred while processing
your request." for Unexpected-Status-Code and Decoding, 500 "An unexpected
error occurred." for Timeout and every unclassified error; on a fresh
recorder that is the status and the message followed by a newline. -/
theorem handleWeatherDataError_table (err : GoError) (w : ResponseWriter) :
    handleWeatherDataError err w =
      httpError w (failureMappingTable err.root).2 (failureMappingTable err.root).1 ∧
    (handleWeatherDataError err NewRecorder).result.Code = (failureMappingTable err.root).1 ∧
    (handleWeatherDataError err NewRecorder).result.Body =
      (failureMappingTable err.root).2 ++ "\n" := by
  have key : ∀ w0 : ResponseWriter, handleWeatherDataError err w0 =
      httpError w0 (failureMappingTable err.root).2 (failureMappingTable err.root).1 := by
    intro w0
    have hw := root_ne_wrap err
    unfold handleWeatherDataError
    simp only [ErrInvalidAPIKey, ErrBadRequest, ErrServiceUnavailable, ErrUnexpectedStatusCode,
      ErrDecodingResponse, errorsIs_sentinel]
    cases hr : err.root with
    | sentinel k =>
      cases k <;>
        simp [failureMappingTable, StatusUnauthorized, StatusBadRequest,
          StatusServiceUnavailable, StatusInternalServerError]
    | DeadlineExceeded => simp [failureMappingTable, StatusInternalServerError]
    | plain m => simp [failureMappingTable, StatusInternalServerError]
    | wrap m i => exact absurd hr (hw m i)
  refine ⟨key w, ?_, ?_⟩
  · rw [key]; exact (httpError_new _ _).1
  · rw [key]; exact (httpError_new _ _).2

/-! ## The upstream client -/

/-- When `url.Parse` rejects the base URL and a credential is present,
FetchWeatherData returns the error of the URL builder as it is: a plain error
that wraps nothing, with the world untouched. -/
theorem fetch_parseError {σ : Type} (up : Upstream σ) (ctx : Context)
    (lat lon baseURL units apiKey : String) (world : σ) (e : GoError)
    (hkey : ctx.Value (CtxKey.APIKeyContextKey "apiKey") = some (.string apiKey))
    (hne : apiKey ≠ "") (hparse : up.url.Parse baseURL = .error e) :
    FetchWeatherData up ctx lat lon baseURL units world =
      (({}, some (.plain ("error parsing base URL: " ++ e.Error))), world) := by
  simp [FetchWeatherData, hkey, assertString, hne, BuildOpenWeatherMapURL, hparse, errorfV]

/-- C6 (what the code does): with the malformed base URL
"http://[::1]:namedport" of the URL builder test and a credential in the
context, the error FetchWeatherData returns is not of the Bad-Request kind,
and the handler answers 500 "An unexpected error occurred." rather than 400
"Bad request to OpenWeather API.". -/
theorem fetch_malformedURL_answers500 :
    (FetchWeatherData (mockUpstream (.response 200 "") mockDecode) (contextWithKey "k")
      "35" "139" "http://[::1]:namedport" "metric" 0).1.2 =
      some (.plain ("error parsing base URL: parse \"http://[::1]:namedport\": " ++
        "invalid port \":namedport\" after host")) ∧
    errorsIs (.plain ("error parsing base URL: parse \"http://[::1]:namedport\": " ++
        "invalid port \":namedport\" after host")) ErrBadRequest = false ∧
    (GetWeatherConditionByCoordinates plainURL
      (NewWeatherHandler (FetchWeatherData (mockUpstream (.response 200 "") mockDecode))
        { testConfig with OpenWeatherMapAPIURL := "http://[::1]:namedport" })
      NewRecorder
      ((getRequest "/weather" "lat=35&lon=139").WithContext (contextWithKey "k"))
      0).1.result.Code = 500 ∧
    (GetWeatherConditionByCoordinates plainURL
      (NewWeatherHandler (FetchWeatherData (mockUpstream (.response 200 "") mockDecode))
        { testConfig with OpenWeatherMapAPIURL := "http://[::1]:namedport" })
      NewRecorder
      ((getRequest "/weather" "lat=35&lon=139").WithContext (contextWithKey "k"))
      0).1.result.Body = "An unexpected error occurred.\n" := by
  refine ⟨?_, ?_, ?_, ?_⟩
  · decide!
  · decide!
  · decide!
  · decide!

/-- C7: with a credential in the context, the URL built and the request
constructed, FetchWeatherData sends the request once and classifies what comes
back: a transport error that is a context deadline exceeded gives ErrTimeout;
every other transport error gives ErrServiceUnavailable wrapped with the
detail of the transport error;
status 401 gives ErrInvalidAPIKey, 400 ErrBadRequest, 503
ErrServiceUnavailable; every other status different from 200 gives
ErrUnexpectedStatusCode wrapped with the numeric status as detail; status 200
with a body that fails to decode gives ErrDecodingResponse wrapped with the
detail of the decoder; status 200 with a body that decodes gives the decoded
data and no error. -/
theorem fetch_classification {σ : Type} (up : Upstream σ) (ctx : Context)
    (lat lon baseURL units apiKey finalURL : String) (request : ClientRequest)
    (world world1 : σ) (outcome : DoResult)
    (hkey : ctx.Value (CtxKey.APIKeyContextKey "apiKey") = some (.string apiKey))
    (hne : apiKey ≠ "")
    (hurl : BuildOpenWeatherMapURL up.url baseURL apiKey lat lon units = .ok finalURL)
    (hreq : up.NewRequest
      { Method := "GET", URL := finalURL, ctx := ctx, timeout := requestTimeout } = .ok request)
    (hdo : up.Do request world = (outcome, world1)) :
    (∀ e, outcome = .err e → errorsIs e .DeadlineExceeded = true →
      FetchWeatherData up ctx lat lon baseURL units world = (({}, some ErrTimeout), world1)) ∧
    (∀ e, outcome = .err e → errorsIs e .DeadlineExceeded = false →
      FetchWeatherData up ctx lat lon baseURL units world =
        (({}, some (errorfW ErrServiceUnavailable (": " ++ e.Error))), world1)) ∧
    (∀ body, outcome = .response 401 body →
      FetchWeatherData up ctx lat lon baseURL units world =
        (({}, some ErrInvalidAPIKey), world1)) ∧
    (∀ body, outcome = .response 400 body →
      FetchWeatherData up ctx lat lon baseURL units world =
        (({}, some ErrBadRequest), world1)) ∧
    (∀ body, outcome = .response 503 body →
      FetchWeatherData up ctx lat lon baseURL units world =
        (({}, some ErrServiceUnavailable), world1)) ∧
    (∀ code body, outcome = .response code body →
      code ≠ 200 → code ≠ 401 → code ≠ 400 → code ≠ 503 →
      FetchWeatherData up ctx lat lon baseURL units world =
        (({}, some (errorfW ErrUnexpectedStatusCode (": " ++ toString code))), world1)) ∧
    (∀ body data e, outcome = .response 200 body → up.Decode body = (data, some e) →
      FetchWeatherData up ctx lat lon baseURL units world =
        ((data, some (errorfW ErrDecodingResponse (": " ++ e.Error))), world1)) ∧
    (∀ body data, outcome = .response 200 body → up.Decode body = (data, none) →
      FetchWeatherData up ctx lat lon baseURL units world = ((data, none), world1)) := by
  refine ⟨fun e ho ht => ?_, fun e ho ht => ?_, fun body ho => ?_, fun body ho => ?_,
    fun body ho => ?_, fun code body ho c1 c2 c3 c4 => ?_, fun body data e ho hd => ?_,
    fun body data ho hd => ?_⟩ <;> subst ho
  · simp [FetchWeatherData, hkey, assertString, hne, hurl, hreq, hdo, ht]
  · simp [FetchWeatherData, hkey, assertString, hne, hurl, hreq, hdo, ht]
  · simp [FetchWeatherData, hkey, assertString, hne, hurl, hreq, hdo, StatusOK,
      StatusUnauthorized]
  · simp [FetchWeatherData, hkey, assertString, hne, hurl, hreq, hdo, StatusOK,
      StatusUnauthorized, StatusBadRequest]
  · simp [FetchWeatherData, hkey, assertString, hne, hurl, hreq, hdo, StatusOK,
      StatusUnauthorized, StatusBadRequest, StatusServiceUnavailable]
  · simp [FetchWeatherData, hkey, assertString, hne, hurl, hreq, hdo, StatusOK,
      StatusUnauthorized, StatusBadRequest, StatusServiceUnavailable, c1, c2, c3, c4]
  · simp [FetchWeatherData, hkey, assertString, hne, hurl, hreq, hdo, StatusOK, hd]
  · simp [FetchWeatherData, hkey, assertString, hne, hurl, hreq, hdo, StatusOK, hd]

/-- C7 on the rate-limit test of the client: the upstream answers 429, the
client returns ErrUnexpectedStatusCode with the detail ": 429" after one
request sent. -/
theorem fetch_classification_witness :
    FetchWeatherData (mockUpstream (.response 429 "") mockDecode)
      (contextWithKey "valid-api-key") "35" "139" "http://example.com" "metric" 0 =
      (({}, some (errorfW ErrUnexpectedStatusCode ": 429")), 1) :=
  (fetch_classification (mockUpstream (.response 429 "") mockDecode)
    (contextWithKey "valid-api-key") "35" "139" "http://example.com" "metric" "valid-api-key"
    "http://example.com?appid=valid-api-key&lat=35&lon=139&units=metric"
    { Method := "GET"
      URL := "http://example.com?appid=valid-api-key&lat=35&lon=139&units=metric"
      ctx := contextWithKey "valid-api-key", timeout := requestTimeout }
    0 1 (.response 429 "") (by decide!) (by decide) (by decide!) rfl rfl).2.2.2.2.2.1
    429 "" rfl (by decide) (by decide) (by decide) (by decide)

/-- C8: when the context carries no string under the API-key context key, or
the empty string, FetchWeatherData returns ErrBadRequest wrapped with the
detail "API key not found in context"; the world is left as it was and the
result is the same whatever the URL parsers, the request constructor, the
network and the decoder are: no URL is built and no call is made. -/
theorem fetch_missingKey {σ : Type} (up : Upstream σ) (ctx : Context)
    (lat lon baseURL units : String) (world : σ)
    (hkey : ∀ k, ctx.Value (CtxKey.APIKeyContextKey "apiKey") = some (.string k) → k = "") :
    FetchWeatherData up ctx lat lon baseURL units world =
      (({}, some (errorfW ErrBadRequest ": API key not found in context")), world) ∧
    errorsIs (errorfW ErrBadRequest ": API key not found in context") ErrBadRequest = true ∧
    (∀ other : Upstream σ,
      FetchWeatherData other ctx lat lon baseURL units world =
        FetchWeatherData up ctx lat lon baseURL units world) := by
  have key : ∀ u : Upstream σ, FetchWeatherData u ctx lat lon baseURL units world =
      (({}, some (errorfW ErrBadRequest ": API key not found in context")), world) := by
    intro u
    unfold FetchWeatherData
    cases hv : ctx.Value (CtxKey.APIKeyContextKey "apiKey") with
    | none => simp [assertString]
    | some v =>
      cases v with
      | string k =>
        have hk := hkey k hv
        subst hk
        simp [assertString]
      | foreign x => simp [assertString]
  exact ⟨key up, by decide!, fun other => by rw [key, key]⟩

/-- C8 on the missing-key test: the background context, the stand-in network
would answer 200, and no request is sent. -/
theorem fetch_missingKey_witness :
    FetchWeatherData (mockUpstream (.response 200 "") mockDecode) Context.Background
      "35" "139" "http://example.com" "metric" 0 =
      (({}, some (errorfW ErrBadRequest ": API key not found in context")), 0) :=
  (fetch_missingKey (mockUpstream (.response 200 "") mockDecode) Context.Background
    "35" "139" "http://example.com" "metric" 0 (by intro k h; simp [Context.Value, Context.Background] at h)).1

/-! ## The credential extractor -/

/-- C9: for a request whose X-API-Key header is absent or empty the
middleware answers with `http.Error`, status 400 and its fixed message, and
the world is left as it was whatever the next handler is; for a request whose
X-API-Key header has the non-empty value `k` the result is that of the next
handler, run once on the same writer and world with the request whose context
yields exactly `k` to the lookup of the upstream client. -/
theorem authMiddleware_spec {σ : Type} (next : Handler σ) (r : Request) (world : σ) :
    (r.Header.Get "X-API-Key" = "" →
      (∀ w, OpenWeatherMapAuthMiddleware next w r world =
        (httpError w missingAPIKeyMessage 400, world)) ∧
      (OpenWeatherMapAuthMiddleware next NewRecorder r world).1.result.Code = 400 ∧
      (OpenWeatherMapAuthMiddleware next NewRecorder r world).1.result.Body =
        missingAPIKeyMessage ++ "\n") ∧
    (∀ k, r.Header.Get "X-API-Key" = k → k ≠ "" →
      (∀ w, OpenWeatherMapAuthMiddleware next w r world =
        next w (r.WithContext (Context.WithValue r.Context (CtxKey.APIKeyContextKey "apiKey")
          (.string k))) world) ∧
      assertString ((r.WithContext (Context.WithValue r.Context
        (CtxKey.APIKeyContextKey "apiKey") (.string k))).Context.Value
          (CtxKey.APIKeyContextKey "apiKey")) = (k, true)) := by
  constructor
  · intro h
    have key : ∀ w, OpenWeatherMapAuthMiddleware next w r world =
        (httpError w missingAPIKeyMessage 400, world) := by
      intro w
      simp [OpenWeatherMapAuthMiddleware, APIKeyHeader, h, StatusBadRequest]
    refine ⟨key, ?_, ?_⟩
    · rw [key]; exact (httpError_new _ _).1
    · rw [key]; exact (httpError_new _ _).2
  · intro k hk hne
    subst hk
    refine ⟨fun w => ?_, ?_⟩
    · simp [OpenWeatherMapAuthMiddleware, APIKeyHeader, hne]
    · simp [Request.WithContext, Request.Context, Context.WithValue, Context.Value,
        List.lookup, assertString]

/-- C9 on the two requests of the middleware test, with a next handler that
counts its invocations: without the header 400 and no invocation, with the
header "test-api-key" one invocation and status 200. -/
theorem authMiddleware_spec_witness :
    ((OpenWeatherMapAuthMiddleware countingHandler NewRecorder (getRequest "/" "") 0).1.result.Code
        = 400 ∧
      (OpenWeatherMapAuthMiddleware countingHandler NewRecorder (getRequest "/" "") 0).2 = 0) ∧
    (OpenWeatherMapAuthMiddleware countingHandler NewRecorder
      { getRequest "/" "" with Header := Header.Set [] "X-API-Key" "test-api-key" } 0 =
        (NewRecorder.WriteHeader 200, 1)) :=
  ⟨⟨((authMiddleware_spec countingHandler (getRequest "/" "") 0).1 (by decide!)).2.1,
    by rw [((authMiddleware_spec countingHandler (getRequest "/" "") 0).1 (by decide!)).1]⟩,
   by rw [((authMiddleware_spec countingHandler
        { getRequest "/" "" with Header := Header.Set [] "X-API-Key" "test-api-key" } 0).2
        "test-api-key" (by decide!) (by decide)).1]
      rfl⟩

/-! ## float64: bounds on rounded results -/

namespace Float64

theorem bitLenAux_zero (fuel : Nat) : bitLenAux fuel 0 = 0 := by
  cases fuel <;> simp [bitLenAux]

theorem lt_two_pow_bitLenAux (fuel n : Nat) (h : n ≤ fuel) : n < 2 ^ bitLenAux fuel n := by
  induction fuel generalizing n with
  | zero =>
    have : n = 0 := by omega
    subst this
    simp [bitLenAux]
  | succ fuel ih =>
    unfold bitLenAux
    split_ifs with h0
    · subst h0; simp
    · have h2 := ih (n / 2) (by omega)
      rw [pow_succ]
      omega

theorem two_pow_bitLenAux_le (fuel n : Nat) (h : n ≤ fuel) (hn : 0 < n) :
    2 ^ (bitLenAux fuel n - 1) ≤ n := by
  induction fuel generalizing n with
  | zero => omega
  | succ fuel ih =>
    unfold bitLenAux
    rw [if_neg (by omega)]
    simp only [Nat.add_sub_cancel]
    by_cases h2 : n / 2 = 0
    · rw [h2, bitLenAux_zero]; simpa using hn
    · have h3 := ih (n / 2) (by omega) (by omega)
      have h4 : 0 < bitLenAux fuel (n / 2) := by
        by_contra hc
        have h5 := lt_two_pow_bitLenAux fuel (n / 2) (by omega)
        have h6 : bitLenAux fuel (n / 2) = 0 := by omega
        rw [h6] at h5
        omega
      have h7 : bitLenAux fuel (n / 2) = (bitLenAux fuel (n / 2) - 1) + 1 := by omega
      rw [h7, pow_succ]
      omega

theorem lt_two_pow_bitLen (n : Nat) : n < 2 ^ bitLen n :=
  lt_two_pow_bitLenAux n n le_rfl

theorem two_pow_bitLen_le (n : Nat) (hn : 0 < n) : 2 ^ (bitLen n - 1) ≤ n :=
  two_pow_bitLenAux_le n n le_rfl hn

theorem bitLen_pos (n : Nat) (hn : 0 < n) : 0 < bitLen n := by
  by_contra hc
  have h1 := lt_two_pow_bitLen n
  have h2 : bitLen n = 0 := by omega
  rw [h2] at h1
  omega

theorem shl_cast_max (n : Nat) (k : Int) :
    ((shl n k : Nat) : ℚ) = (n : ℚ) * (2 : ℚ) ^ (max k 0) := by
  unfold shl
  push_cast
  congr 1
  rw [← zpow_natCast, Int.toNat_eq_max]

/-- The exponent computed by `floorLog2` is a lower bound: `2^e ≤ num/den`. -/
theorem floorLog2_le (num den : Nat) (hn : 0 < num) (hd : 0 < den) :
    (2 : ℚ) ^ (floorLog2 num den) ≤ (num : ℚ) / den := by
  have h2 : (0 : ℚ) < 2 := by norm_num
  have hdq : (0 : ℚ) < den := by exact_mod_cast hd
  unfold floorLog2
  simp only
  split_ifs with hc
  · have hq : ((shl den ((bitLen num : Int) - bitLen den) : Nat) : ℚ) ≤
        ((shl num (-((bitLen num : Int) - bitLen den)) : Nat) : ℚ) := by exact_mod_cast hc
    rw [shl_cast_max, shl_cast_max] at hq
    rw [le_div_iff₀ hdq]
    have e1 : ((bitLen num : Int) - bitLen den) =
        max ((bitLen num : Int) - bitLen den) 0 - max (-((bitLen num : Int) - bitLen den)) 0 := by
      rcases le_total ((bitLen num : Int) - bitLen den) 0 with h | h
      · rw [max_eq_right h, max_eq_left (by omega)]; omega
      · rw [max_eq_left h, max_eq_right (by omega)]; omega
    rw [e1, zpow_sub₀ (ne_of_gt h2), div_mul_eq_mul_div, div_le_iff₀ (zpow_pos h2 _)]
    linarith
  · have hl := two_pow_bitLen_le num hn
    have hu := lt_two_pow_bitLen den
    have hp := bitLen_pos num hn
    have hlq : (2 : ℚ) ^ ((bitLen num : Int) - 1) ≤ num := by
      have : ((2 ^ (bitLen num - 1) : Nat) : ℚ) ≤ num := by exact_mod_cast hl
      rw [Nat.cast_pow, ← zpow_natCast] at this
      have e : ((bitLen num - 1 : Nat) : Int) = (bitLen num : Int) - 1 := by omega
      rw [e] at this
      simpa using this
    have huq : (den : ℚ) ≤ (2 : ℚ) ^ (bitLen den : Int) := by
      have : (den : ℚ) ≤ ((2 ^ bitLen den : Nat) : ℚ) := by exact_mod_cast le_of_lt hu
      rw [Nat.cast_pow, ← zpow_natCast] at this
      simpa using this
    have e2 : ((bitLen num : Int) - bitLen den - 1) = ((bitLen num : Int) - 1) - bitLen den := by
      omega
    rw [e2, zpow_sub₀ (ne_of_gt h2)]
    exact div_le_div₀ (by exact_mod_cast Nat.zero_le num) hlq hdq huq

theorem roundHalfEven_le (N D K : Nat) (hD : 0 < D) (h : N ≤ K * D) :
    roundHalfEven N D ≤ K := by
  unfold roundHalfEven
  simp only
  have h1 : N / D ≤ K := by
    calc N / D ≤ K * D / D := Nat.div_le_div_right h
      _ = K := Nat.mul_div_cancel K hD
  rcases Nat.lt_or_ge (N / D) K with hlt | hge
  · split_ifs <;> omega
  · have hK : N / D = K := by omega
    have hN : N = K * D := by
      have := Nat.div_mul_le_self N D
      rw [hK] at this
      omega
    have hr : N % D = 0 := by rw [hN]; exact Nat.mul_mod_left K D
    rw [hr]
    split_ifs with a b
    · omega
    · omega
    · omega


/-- Rounding does not pass a bound of the form `K * 2^t` that is itself a
binary64 value: the result is finite and at most the bound. -/
theorem round_le (s : Bool) (num den : Nat) (k : Int) (K : Nat) (t : Int)
    (hq : (num : ℚ) / den * 2 ^ k ≤ K * 2 ^ t)
    (hK : K < 2 ^ 53) (ht : -1074 ≤ t) (hover : t ≤ 971) :
    ∃ m e, round s num den k = fin s m e ∧ (m : ℚ) * 2 ^ e ≤ K * 2 ^ t := by
  have h2 : (0 : ℚ) < 2 := by norm_num
  have h2' : (2 : ℚ) ≠ 0 := ne_of_gt h2
  have hKt : (0 : ℚ) ≤ K * 2 ^ t := mul_nonneg (Nat.cast_nonneg K) (le_of_lt (zpow_pos h2 t))
  by_cases h0 : num = 0 ∨ den = 0
  · exact ⟨0, -1074, by simp [round, h0], by simpa using hKt⟩
  have hn : 0 < num := by omega
  have hd : 0 < den := by omega
  have hnq : (0 : ℚ) < num := by exact_mod_cast hn
  have hdq : (0 : ℚ) < den := by exact_mod_cast hd
  have hKq : (K : ℚ) < 2 ^ (53 : Int) := by
    rw [show (53 : Int) = ((53 : ℕ) : Int) from rfl, zpow_natCast]
    exact_mod_cast hK
  -- the exponent of the value is below that of the bound
  have f1 : (2 : ℚ) ^ (floorLog2 num den + k) ≤ (num : ℚ) / den * 2 ^ k := by
    rw [zpow_add₀ h2']
    exact mul_le_mul_of_nonneg_right (floorLog2_le num den hn hd) (le_of_lt (zpow_pos h2 k))
  have f2 : (2 : ℚ) ^ (floorLog2 num den + k) < 2 ^ (53 + t) := by
    calc (2 : ℚ) ^ (floorLog2 num den + k) ≤ K * 2 ^ t := le_trans f1 hq
      _ < 2 ^ (53 : Int) * 2 ^ t := mul_lt_mul_of_pos_right hKq (zpow_pos h2 t)
      _ = 2 ^ (53 + t) := by rw [zpow_add₀ h2']
  have f3 : floorLog2 num den + k < 53 + t := (zpow_lt_zpow_iff_right₀ (by norm_num)).mp f2
  have hqe : max (floorLog2 num den + k - 52) (-1074) ≤ t := max_le (by omega) ht
  unfold round
  rw [if_neg h0]
  simp only
  generalize max (floorLog2 num den + k - 52) (-1074) = qe at *
  have hpos : (0 : ℚ) < (2 : ℚ) ^ qe := zpow_pos h2 qe
  have hK' : ((K * 2 ^ (t - qe).toNat : Nat) : ℚ) = K * (2 ^ t / 2 ^ qe) := by
    push_cast
    rw [← zpow_natCast, Int.toNat_of_nonneg (by omega), zpow_sub₀ h2']
  -- the rounded mantissa is at most the scaled bound
  have hD : 0 < shl den (-(k - qe)) := by
    unfold shl; positivity
  have hN : shl num (k - qe) ≤ (K * 2 ^ (t - qe).toNat) * shl den (-(k - qe)) := by
    have : ((shl num (k - qe) : Nat) : ℚ) ≤
        (((K * 2 ^ (t - qe).toNat) * shl den (-(k - qe)) : Nat) : ℚ) := by
      rw [Nat.cast_mul, hK', shl_cast_max, shl_cast_max]
      have e1 : max (k - qe) 0 = (k - qe) + max (-(k - qe)) 0 := by
        rcases le_total (k - qe) 0 with h | h
        · rw [max_eq_right h, max_eq_left (by omega)]; omega
        · rw [max_eq_left h, max_eq_right (by omega)]; omega
      have hq' : (num : ℚ) * 2 ^ k ≤ K * 2 ^ t * den := by
        rw [div_mul_eq_mul_div, div_le_iff₀ hdq] at hq
        exact hq
      rw [e1, zpow_add₀ h2', zpow_sub₀ h2']
      have hpos2 : (0 : ℚ) < (2 : ℚ) ^ (max (-(k - qe)) 0) := zpow_pos h2 _
      have h3 : (num : ℚ) * (2 ^ k / 2 ^ qe) ≤ K * (2 ^ t / 2 ^ qe) * den := by
        rw [← mul_div_assoc, ← mul_div_assoc, div_mul_eq_mul_div, div_le_div_iff₀ hpos hpos]
        nlinarith
      calc (num : ℚ) * (2 ^ k / 2 ^ qe * 2 ^ (max (-(k - qe)) 0))
          = (num : ℚ) * (2 ^ k / 2 ^ qe) * 2 ^ (max (-(k - qe)) 0) := by ring
        _ ≤ K * (2 ^ t / 2 ^ qe) * den * 2 ^ (max (-(k - qe)) 0) :=
            mul_le_mul_of_nonneg_right h3 (le_of_lt hpos2)
        _ = K * (2 ^ t / 2 ^ qe) * (den * 2 ^ (max (-(k - qe)) 0)) := by ring
    exact_mod_cast this
  have hn' := roundHalfEven_le _ _ _ hD hN
  have hval : ∀ n : Nat, n ≤ K * 2 ^ (t - qe).toNat → (n : ℚ) * 2 ^ qe ≤ K * 2 ^ t := by
    intro n hle
    have h4 : (n : ℚ) ≤ ((K * 2 ^ (t - qe).toNat : Nat) : ℚ) := by exact_mod_cast hle
    rw [hK', ← mul_div_assoc, le_div_iff₀ hpos] at h4
    exact h4
  generalize roundHalfEven (shl num (k - qe)) (shl den (-(k - qe))) = n at *
  by_cases h53 : n = 2 ^ 53
  · rw [if_pos h53]
    have hlt : qe < t := by
      by_contra hc
      have h5 : t - qe = 0 := by omega
      rw [h53, h5] at hn'
      simp at hn'
      omega
    rw [if_neg (by omega)]
    refine ⟨2 ^ 52, qe + 1, rfl, ?_⟩
    have h6 := hval n hn'
    rw [h53] at h6
    rw [zpow_add₀ h2']
    push_cast at h6 ⊢
    linarith
  · rw [if_neg h53, if_neg (by omega)]
    exact ⟨n, qe, rfl, hval n hn'⟩


theorem ofInt_le (z : Int) (hz : 0 ≤ z) (K : Nat) (t : Int) (h : (z : ℚ) ≤ K * 2 ^ t)
    (hK : K < 2 ^ 53) (ht : -1074 ≤ t) (hover : t ≤ 971) :
    ∃ m e, ofInt z = fin false m e ∧ (m : ℚ) * 2 ^ e ≤ K * 2 ^ t := by
  unfold ofInt
  rw [decide_eq_false (by omega)]
  apply round_le _ _ _ _ _ _ ?_ hK ht hover
  have e1 : ((z.natAbs : Nat) : ℚ) = (z : ℚ) := by
    rw [Nat.cast_natAbs, abs_of_nonneg hz]
  simpa [e1] using h

theorem div_fin_le (m1 : Nat) (e1 : Int) (m2 : Nat) (e2 : Int) (hm2 : m2 ≠ 0) (K : Nat)
    (t : Int) (h : (m1 : ℚ) * 2 ^ e1 / (m2 * 2 ^ e2) ≤ K * 2 ^ t)
    (hK : K < 2 ^ 53) (ht : -1074 ≤ t) (hover : t ≤ 971) :
    ∃ m e, fin false m1 e1 / fin false m2 e2 = fin false m e ∧
      (m : ℚ) * 2 ^ e ≤ K * 2 ^ t := by
  have h2' : (2 : ℚ) ≠ 0 := by norm_num
  show ∃ m e, div (fin false m1 e1) (fin false m2 e2) = fin false m e ∧ _
  simp only [div, if_neg hm2, Bool.xor_self]
  apply round_le _ _ _ _ _ _ ?_ hK ht hover
  have e3 : (m1 : ℚ) / m2 * 2 ^ (e1 - e2) = (m1 : ℚ) * 2 ^ e1 / (m2 * 2 ^ e2) := by
    rw [zpow_sub₀ h2']
    field_simp
  rw [e3]
  exact h

theorem add_fin_le (m1 : Nat) (e1 : Int) (m2 : Nat) (e2 : Int) (K : Nat) (t : Int)
    (h : (m1 : ℚ) * 2 ^ e1 + m2 * 2 ^ e2 ≤ K * 2 ^ t)
    (hK : K < 2 ^ 53) (ht : -1074 ≤ t) (hover : t ≤ 971) :
    ∃ m e, fin false m1 e1 + fin false m2 e2 = fin false m e ∧
      (m : ℚ) * 2 ^ e ≤ K * 2 ^ t := by
  have h2 : (0 : ℚ) < 2 := by norm_num
  show ∃ m e, add (fin false m1 e1) (fin false m2 e2) = fin false m e ∧ _
  simp only [add]
  have hz : 0 ≤ scaled false m1 e1 (min e1 e2) + scaled false m2 e2 (min e1 e2) := by
    simp only [scaled, Bool.false_eq_true, if_false]
    positivity
  have hzq : ((scaled false m1 e1 (min e1 e2) + scaled false m2 e2 (min e1 e2) : Int) : ℚ) =
      ((m1 : ℚ) * 2 ^ e1 + m2 * 2 ^ e2) * ((2 : ℚ) ^ (min e1 e2))⁻¹ := by
    rw [Int.cast_add, scaled_cast _ _ _ _ (min_le_left e1 e2),
      scaled_cast _ _ _ _ (min_le_right e1 e2)]
    simp [toRat]
    ring
  generalize scaled false m1 e1 (min e1 e2) + scaled false m2 e2 (min e1 e2) = z at *
  split_ifs with h0
  · refine ⟨0, -1074, by simp, ?_⟩
    have : (0 : ℚ) ≤ K * 2 ^ t :=
      mul_nonneg (Nat.cast_nonneg K) (le_of_lt (zpow_pos h2 t))
    simpa using this
  · rw [decide_eq_false (by omega)]
    apply round_le _ _ _ _ _ _ ?_ hK ht hover
    have e1' : ((z.natAbs : Nat) : ℚ) = (z : ℚ) := by
      rw [Nat.cast_natAbs, abs_of_nonneg hz]
    rw [e1', hzq]
    have hp : (0 : ℚ) < (2 : ℚ) ^ (min e1 e2) := zpow_pos h2 _
    simp only [Nat.cast_one, div_one]
    rw [mul_assoc, inv_mul_cancel₀ (ne_of_gt hp), mul_one]
    exact h

theorem lit1e9 : ofInt 1000000000 = fin false 8388608000000000 (-23) := by decide!

theorem toInt_bounds (m : Nat) (e : Int) (B : Nat) (hB : B < 2 ^ 63)
    (h : (m : ℚ) * 2 ^ e ≤ B) :
    0 ≤ toInt (fin false m e) ∧ toInt (fin false m e) ≤ B := by
  have h2 : (0 : ℚ) < 2 := by norm_num
  have ha : (if 0 ≤ e then m * 2 ^ e.toNat else m / 2 ^ (-e).toNat) ≤ B := by
    split_ifs with he
    · have : ((m * 2 ^ e.toNat : Nat) : ℚ) ≤ (B : ℚ) := by
        push_cast
        rw [← zpow_natCast, Int.toNat_of_nonneg he]
        exact h
      exact_mod_cast this
    · apply Nat.div_le_of_le_mul
      have : (m : ℚ) ≤ ((2 ^ (-e).toNat * B : Nat) : ℚ) := by
        push_cast
        rw [← zpow_natCast, Int.toNat_of_nonneg (by omega), zpow_neg]
        have hp : (0 : ℚ) < (2 : ℚ) ^ e := zpow_pos h2 e
        rw [inv_mul_eq_div, le_div_iff₀ hp]
        exact h
      exact_mod_cast this
  unfold toInt
  simp only [Bool.false_eq_true, if_false]
  generalize (if 0 ≤ e then m * 2 ^ e.toNat else m / 2 ^ (-e).toNat) = a at *
  have h63 : (2 : Int) ^ 63 = 9223372036854775808 := by norm_num
  have h63n : (2 : Nat) ^ 63 = 9223372036854775808 := by norm_num
  rw [h63]
  rw [h63n] at hB
  rw [if_neg (by omega)]
  omega

end Float64

/-! ## The rate limiter -/

/-- For a duration between 0 and one second `Seconds` is a finite value
between 0 and 4. -/
theorem seconds_le (d : Int) (h0 : 0 ≤ d) (h1 : d ≤ 1000000000) :
    ∃ m e, Duration.Seconds d = fin false m e ∧ (m : ℚ) * 2 ^ e ≤ (4 : Nat) := by
  have hs : 0 ≤ Int.tdiv d Second ∧ Int.tdiv d Second ≤ 1 := by
    rw [Int.tdiv_eq_ediv h0 (by decide)]
    unfold Second
    omega
  have hn : 0 ≤ Int.tmod d Second ∧ Int.tmod d Second ≤ 1000000000 := by
    rw [Int.tmod_eq_emod h0 (by decide)]
    unfold Second
    omega
  obtain ⟨mA, eA, hA, hAv⟩ := ofInt_le (Int.tdiv d Second) hs.1 1 0
    (by have : ((Int.tdiv d Second : Int) : ℚ) ≤ 1 := by exact_mod_cast hs.2
        simpa using this) (by norm_num) (by norm_num) (by norm_num)
  obtain ⟨mB, eB, hB, hBv⟩ := ofInt_le (Int.tmod d Second) hn.1 1 30
    (by have : ((Int.tmod d Second : Int) : ℚ) ≤ 1000000000 := by exact_mod_cast hn.2
        norm_num
        linarith) (by norm_num) (by norm_num) (by norm_num)
  obtain ⟨mD, eD, hD, hDv⟩ := div_fin_le mB eB 8388608000000000 (-23) (by norm_num) 1 1
    (by
      have e9 : ((8388608000000000 : Nat) : ℚ) * 2 ^ (-23 : Int) = 1000000000 := by
        norm_num [zpow_neg]
      rw [e9, div_le_iff₀ (by norm_num)]
      norm_num at hBv ⊢
      linarith) (by norm_num) (by norm_num) (by norm_num)
  obtain ⟨m, e, hE, hEv⟩ := add_fin_le mA eA mD eD 1 2
    (by norm_num at hAv hDv ⊢; linarith) (by norm_num) (by norm_num) (by norm_num)
  refine ⟨m, e, ?_, by norm_num at hEv ⊢; linarith⟩
  unfold Duration.Seconds
  simp only
  rw [hA, hB, lit1e9, hD, hE]

/-- For a retry delay between 0 and one second the seconds announced are at
least 1 (and at most 5). -/
theorem retryAfterSeconds_bounds (d : Int) (h0 : 0 ≤ d) (h1 : d ≤ 1000000000) :
    1 ≤ retryAfterSeconds d ∧ retryAfterSeconds d ≤ 5 := by
  obtain ⟨m, e, hS, hv⟩ := seconds_le d h0 h1
  have hb := toInt_bounds m e 4 (by norm_num) hv
  unfold retryAfterSeconds wrap64
  rw [hS]
  generalize (fin false m e).toInt = x at *
  norm_num at hb ⊢
  omega
theorem wrap64_of_small (x : Int) (h0 : -1000000000000 ≤ x) (h1 : x ≤ 1000000000000) :
    wrap64 x = x := by
  unfold wrap64
  norm_num
  omega

/-- The Retry-After header survives `http.Error` on a fresh recorder. -/
theorem retryAfter_header (v msg : String) (code : Int) :
    (httpError (NewRecorder.modifyHeader (fun h => Header.Set h "Retry-After" v)) msg
      code).result.snapHeader.Get "Retry-After" = v ∧
    (httpError (NewRecorder.modifyHeader (fun h => Header.Set h "Retry-After" v)) msg
      code).result.Code = code := by
  have c1 : CanonicalMIMEHeaderKey "Retry-After" = "Retry-After" := by decide!
  have c2 : CanonicalMIMEHeaderKey "Content-Length" = "Content-Length" := by decide!
  have c3 : CanonicalMIMEHeaderKey "Content-Type" = "Content-Type" := by decide!
  have c4 : CanonicalMIMEHeaderKey "X-Content-Type-Options" = "X-Content-Type-Options" := by
    decide!
  simp [httpError, NewRecorder, ResponseWriter.modifyHeader, ResponseWriter.WriteHeader,
    ResponseWriter.Write, ResponseWriter.result, Header.Set, Header.Del, Header.Get, c1, c2, c3,
    c4, List.lookup, List.filter]

/-- C10: for a budget `r ≥ 1` the limiter is constructed with the interval
`1 second / r`; on a request, with `elapsed` the time since the stored
timestamp (the clock being monotonic): if `elapsed < interval` the answer is
429 by `http.Error` with a Retry-After header holding an integer `n ≥ 1`, the
limiter state and the world are left as they were (the next handler is not
invoked); otherwise the stored timestamp becomes the current time and the
result is that of the next handler. -/
theorem rateLimiter_step {σ : Type} (r : Int) (hr : 1 ≤ r) (rl : RateLimiter)
    (hlimit : rl.limitDuration = Int.tdiv Second r)
    (next : Handler σ) (tSince tNow : Time) (req : Request) (world : σ)
    (hmono : rl.lastRequestTime ≤ tSince) :
    (∀ t0, RateLimitMiddleware r t0 =
      some { lastRequestTime := t0, limitDuration := Int.tdiv Second r }) ∧
    (Since tSince rl.lastRequestTime < rl.limitDuration →
      ∃ n : Int, 1 ≤ n ∧
        (∀ w, rl.ServeHTTP next tSince tNow w req world =
          (rl, httpError (w.modifyHeader (fun h => Header.Set h "Retry-After" (toString n)))
            ("Rate limit exceeded. Please wait " ++ toString n ++ " seconds before retrying.")
            429, world)) ∧
        (rl.ServeHTTP next tSince tNow NewRecorder req world).2.1.result.Code = 429 ∧
        (rl.ServeHTTP next tSince tNow NewRecorder req world).2.1.result.snapHeader.Get
          "Retry-After" = toString n) ∧
    (¬ Since tSince rl.lastRequestTime < rl.limitDuration →
      ∀ w, rl.ServeHTTP next tSince tNow w req world =
        ({ rl with lastRequestTime := tNow }, next w req world)) := by
  refine ⟨fun t0 => ?_, fun hlt => ?_, fun hge w => ?_⟩
  · have : r ≠ 0 := by omega
    simp [RateLimitMiddleware, this]
  · obtain ⟨last, limit⟩ := rl
    simp only at hlimit hmono hlt ⊢
    have hl0 : @LE.le Int _ 0 limit := by
      rw [hlimit, Int.tdiv_eq_ediv (by decide) (by omega)]
      exact Int.ediv_nonneg (by decide) (by omega)
    have hl1 : @LE.le Int _ limit 1000000000 := by
      rw [hlimit, Int.tdiv_eq_ediv (by decide) (by omega)]
      exact Int.ediv_le_self _ (by decide)
    have hmono1 : @LE.le Int _ last tSince := hmono
    have hel : Since tSince last = tSince - last := by
      have h63 : (2 : Int) ^ 63 = 9223372036854775808 := by norm_num
      simp only [Since, Time.Sub, h63] at hlt ⊢
      change @LT.lt Int _ _ limit at hlt
      change @Eq Int _ _
      omega
    rw [hel] at hlt
    have hlt1 : @LT.lt Int _ (tSince - last) limit := hlt
    have hw : wrap64 (limit - (tSince - last)) = limit - (tSince - last) :=
      wrap64_of_small _ (by omega) (by omega)
    have hb := retryAfterSeconds_bounds (limit - (tSince - last)) (by omega) (by omega)
    have key : ∀ w, RateLimiter.ServeHTTP { lastRequestTime := last, limitDuration := limit }
        next tSince tNow w req world =
        ({ lastRequestTime := last, limitDuration := limit },
          httpError (w.modifyHeader (fun h => Header.Set h "Retry-After"
            (toString (retryAfterSeconds (limit - (tSince - last))))))
          ("Rate limit exceeded. Please wait " ++
            toString (retryAfterSeconds (limit - (tSince - last))) ++
            " seconds before retrying.") 429, world) := by
      intro w
      simp only [RateLimiter.ServeHTTP, hel, hlt, if_true, hw, StatusTooManyRequests]
    refine ⟨_, hb.1, key, ?_, ?_⟩
    · rw [key]; exact (retryAfter_header _ _ _).2
    · rw [key]; exact (retryAfter_header _ _ _).1
  · simp only [RateLimiter.ServeHTTP, hge, if_false]

/-- C10 with budget 1 and a next handler that counts its invocations: a
request 1 ns after the stored timestamp is answered 429 with Retry-After at
least 1 and counts nothing; a request 1.01 s after it is passed on. -/
theorem rateLimiter_step_witness :
    (∃ n : Int, 1 ≤ n ∧
      (RateLimiter.ServeHTTP { lastRequestTime := 0, limitDuration := 1000000000 }
        countingHandler 1 2 NewRecorder (getRequest "/" "") 0).2.1.result.snapHeader.Get
          "Retry-After" = toString n) ∧
    (RateLimiter.ServeHTTP { lastRequestTime := 0, limitDuration := 1000000000 }
      countingHandler 1 2 NewRecorder (getRequest "/" "") 0).2.2 = 0 ∧
    RateLimiter.ServeHTTP { lastRequestTime := 0, limitDuration := 1000000000 }
      countingHandler 1010000000 1010000001 NewRecorder (getRequest "/" "") 0 =
        ({ lastRequestTime := 1010000001, limitDuration := 1000000000 },
          NewRecorder.WriteHeader 200, 1) :=
  have h1 := (rateLimiter_step 1 (by decide)
    { lastRequestTime := 0, limitDuration := 1000000000 } (by decide!) countingHandler 1 2
    (getRequest "/" "") 0 (by decide)).2.1 (by decide!)
  have h2 := (rateLimiter_step 1 (by decide)
    { lastRequestTime := 0, limitDuration := 1000000000 } (by decide!) countingHandler
    1010000000 1010000001 (getRequest "/" "") 0 (by decide)).2.2 (by decide!) NewRecorder
  ⟨h1.elim (fun n hn => ⟨n, hn.1, hn.2.2.2⟩),
    h1.elim (fun n hn => by rw [hn.2.1 NewRecorder]), h2⟩

/-- C11 (what the code does): the limiter constructed with budget 1 stores
the construction time as the time of the last request, so the first request,
arriving one microsecond later, is answered 429 and the next handler is not
invoked; the repository's own test expects it to pass. -/
theorem rateLimiter_first_request_rejected :
    RateLimitMiddleware 1 0 = some { lastRequestTime := 0, limitDuration := 1000000000 } ∧
    (RateLimiter.ServeHTTP { lastRequestTime := 0, limitDuration := 1000000000 }
      countingHandler 1000 1001 NewRecorder (getRequest "/" "") 0).2.1.result.Code = 429 ∧
    (RateLimiter.ServeHTTP { lastRequestTime := 0, limitDuration := 1000000000 }
      countingHandler 1000 1001 NewRecorder (getRequest "/" "") 0).2.2 = 0 ∧
    (RateLimiter.ServeHTTP { lastRequestTime := 0, limitDuration := 1000000000 }
      countingHandler 1000 1001 NewRecorder (getRequest "/" "") 0).1 =
        { lastRequestTime := 0, limitDuration := 1000000000 } := by
  refine ⟨by decide!, by decide!, by decide!, by decide!⟩

namespace Float64

theorem toInt_zero (m : Nat) (e : Int) (h : (m : ℚ) * 2 ^ e < 1) :
    toInt (fin false m e) = 0 := by
  have h2 : (0 : ℚ) < 2 := by norm_num
  have ha : (if 0 ≤ e then m * 2 ^ e.toNat else m / 2 ^ (-e).toNat) = 0 := by
    split_ifs with he
    · have : ((m * 2 ^ e.toNat : Nat) : ℚ) < ((1 : Nat) : ℚ) := by
        push_cast
        rw [← zpow_natCast, Int.toNat_of_nonneg he]
        exact h
      have h3 : m * 2 ^ e.toNat < 1 := by exact_mod_cast this
      omega
    · apply Nat.div_eq_of_lt
      have : (m : ℚ) < ((2 ^ (-e).toNat : Nat) : ℚ) := by
        push_cast
        rw [← zpow_natCast, Int.toNat_of_nonneg (by omega)]
        have h4 : (m : ℚ) * 2 ^ e * 2 ^ (-e) < 1 * 2 ^ (-e) :=
          mul_lt_mul_of_pos_right h (zpow_pos h2 _)
        rw [mul_assoc, ← zpow_add₀ (ne_of_gt h2), add_neg_cancel, zpow_zero, mul_one,
          one_mul] at h4
        exact h4
      exact_mod_cast this
  unfold toInt
  simp only [Bool.false_eq_true, if_false]
  rw [ha]
  norm_num

end Float64

/-- For a duration of less than one second `Seconds` is a finite value below 1. -/
theorem seconds_lt_one (d : Int) (h0 : 0 ≤ d) (h1 : d < 1000000000) :
    ∃ m e, Duration.Seconds d = fin false m e ∧ (m : ℚ) * 2 ^ e < 1 := by
  have hs : Int.tdiv d Second = 0 := by
    rw [Int.tdiv_eq_ediv h0 (by decide)]
    unfold Second
    omega
  have hn : 0 ≤ Int.tmod d Second ∧ Int.tmod d Second ≤ 999999999 := by
    rw [Int.tmod_eq_emod h0 (by decide)]
    unfold Second
    omega
  have hbound : ((9007199254740991 : Nat) : ℚ) * 2 ^ (-53 : Int) < 1 := by
    norm_num [zpow_neg]
  obtain ⟨mB, eB, hB, hBv⟩ := ofInt_le (Int.tmod d Second) hn.1 999999999 0
    (by have : ((Int.tmod d Second : Int) : ℚ) ≤ 999999999 := by exact_mod_cast hn.2
        norm_num
        linarith) (by norm_num) (by norm_num) (by norm_num)
  obtain ⟨mD, eD, hD, hDv⟩ := div_fin_le mB eB 8388608000000000 (-23) (by norm_num)
    9007199254740991 (-53)
    (by
      have e9 : ((8388608000000000 : Nat) : ℚ) * 2 ^ (-23 : Int) = 1000000000 := by
        norm_num [zpow_neg]
      rw [e9, div_le_iff₀ (by norm_num)]
      norm_num [zpow_neg] at hBv ⊢
      linarith) (by norm_num) (by norm_num) (by norm_num)
  obtain ⟨m, e, hE, hEv⟩ := add_fin_le 0 (-1074) mD eD 9007199254740991 (-53)
    (by norm_num at hDv ⊢; linarith) (by norm_num) (by norm_num) (by norm_num)
  refine ⟨m, e, ?_, lt_of_le_of_lt hEv hbound⟩
  have hz : ofInt 0 = fin false 0 (-1074) := by decide!
  unfold Duration.Seconds
  simp only
  rw [hs, hz, hB, lit1e9, hD, hE]

/-- The seconds announced are the whole seconds of the delay plus one: 1 for
a delay of less than one second, 2 for a delay of exactly one second. -/
theorem retryAfterSeconds_eq (d : Int) (h0 : 0 ≤ d) (h1 : d ≤ 1000000000) :
    retryAfterSeconds d = d / 1000000000 + 1 := by
  rcases lt_or_eq_of_le h1 with hlt | heq
  · obtain ⟨m, e, hS, hv⟩ := seconds_lt_one d h0 hlt
    unfold retryAfterSeconds wrap64
    rw [hS, toInt_zero m e hv]
    norm_num
    omega
  · subst heq
    decide!

/-- The ceiling of a delay between 0 (excluded) and one second (included) is 1. -/
theorem ceilSeconds_eq_one (d : Int) (h0 : 0 < d) (h1 : d ≤ 1000000000) :
    ceilSeconds d = 1 := by
  unfold ceilSeconds
  rw [Int.ceil_eq_iff]
  have hd0 : (0 : ℚ) < (d : ℚ) := by exact_mod_cast h0
  have hd1 : (d : ℚ) ≤ 1000000000 := by exact_mod_cast h1
  constructor
  · norm_num
    positivity
  · rw [div_le_iff₀ (by norm_num)]
    norm_num
    linarith

/-- A rejected request in full: with a monotonic clock and `elapsed < interval`
the delay `interval - elapsed` lies in `(0, 1s]`, the answer is 429 by
`http.Error` and the Retry-After header holds the seconds computed from it. -/
theorem rateLimiter_reject {σ : Type} (r : Int) (hr : 1 ≤ r) (rl : RateLimiter)
    (hlimit : rl.limitDuration = Int.tdiv Second r)
    (next : Handler σ) (tSince tNow : Time) (req : Request) (world : σ)
    (hmono : rl.lastRequestTime ≤ tSince)
    (hlt : Since tSince rl.lastRequestTime < rl.limitDuration) :
    @LT.lt Int _ 0 (rl.limitDuration - Since tSince rl.lastRequestTime) ∧
    @LE.le Int _ (rl.limitDuration - Since tSince rl.lastRequestTime) 1000000000 ∧
    (rl.ServeHTTP next tSince tNow NewRecorder req world).2.1.result.snapHeader.Get
      "Retry-After" =
      toString (retryAfterSeconds (rl.limitDuration - Since tSince rl.lastRequestTime)) := by
  obtain ⟨last, limit⟩ := rl
  simp only at hlimit hmono hlt ⊢
  have hl0 : @LE.le Int _ 0 limit := by
    rw [hlimit, Int.tdiv_eq_ediv (by decide) (by omega)]
    exact Int.ediv_nonneg (by decide) (by omega)
  have hl1 : @LE.le Int _ limit 1000000000 := by
    rw [hlimit, Int.tdiv_eq_ediv (by decide) (by omega)]
    exact Int.ediv_le_self _ (by decide)
  have hmono1 : @LE.le Int _ last tSince := hmono
  have hel : Since tSince last = tSince - last := by
    have h63 : (2 : Int) ^ 63 = 9223372036854775808 := by norm_num
    simp only [Since, Time.Sub, h63] at hlt ⊢
    change @LT.lt Int _ _ limit at hlt
    change @Eq Int _ _
    omega
  rw [hel] at hlt ⊢
  have hlt1 : @LT.lt Int _ (tSince - last) limit := hlt
  have hw : wrap64 (limit - (tSince - last)) = limit - (tSince - last) :=
    wrap64_of_small _ (by omega) (by omega)
  refine ⟨by omega, by omega, ?_⟩
  have key : RateLimiter.ServeHTTP { lastRequestTime := last, limitDuration := limit }
      next tSince tNow NewRecorder req world =
      ({ lastRequestTime := last, limitDuration := limit },
        httpError (NewRecorder.modifyHeader (fun h => Header.Set h "Retry-After"
          (toString (retryAfterSeconds (limit - (tSince - last))))))
        ("Rate limit exceeded. Please wait " ++
          toString (retryAfterSeconds (limit - (tSince - last))) ++
          " seconds before retrying.") 429, world) := by
    simp only [RateLimiter.ServeHTTP, hel, hlt, if_true, hw, StatusTooManyRequests]
  rw [key]
  exact (retryAfter_header _ _ _).1

/-- C12 as stated fails: with budget 1 and a request at the very clock reading
stored in the limiter (elapsed 0, interval 1 s) the Retry-After header is "2",
while the ceiling of the remaining second is 1. -/
theorem retryAfter_not_ceil :
    Since 0 0 = 0 ∧
    (RateLimiter.ServeHTTP { lastRequestTime := 0, limitDuration := Int.tdiv Second 1 }
      countingHandler 0 0 NewRecorder (getRequest "/" "") 0).2.1.result.snapHeader.Get
        "Retry-After" = "2" ∧
    ceilSeconds (Int.tdiv Second 1 - Since 0 0) = 1 ∧
    (RateLimiter.ServeHTTP { lastRequestTime := 0, limitDuration := Int.tdiv Second 1 }
      countingHandler 0 0 NewRecorder (getRequest "/" "") 0).2.1.result.snapHeader.Get
        "Retry-After" ≠ toString (ceilSeconds (Int.tdiv Second 1 - Since 0 0)) := by
  have h0 : Since 0 0 = 0 := by decide!
  have h1 : Int.tdiv Second 1 = 1000000000 := by decide!
  have hc : ceilSeconds (Int.tdiv Second 1 - Since 0 0) = 1 := by
    rw [h0, h1]
    exact ceilSeconds_eq_one _ (by norm_num) (by norm_num)
  have hh : (RateLimiter.ServeHTTP { lastRequestTime := 0, limitDuration := Int.tdiv Second 1 }
      countingHandler 0 0 NewRecorder (getRequest "/" "") 0).2.1.result.snapHeader.Get
        "Retry-After" = "2" := by decide!
  refine ⟨h0, hh, hc, ?_⟩
  rw [hh, hc]
  decide

/-- C12, amended: for every budget `r ≥ 1` and every rejected request (clock
monotonic, `elapsed < interval`), with `d = interval - elapsed` in
nanoseconds, the Retry-After header holds the whole seconds of `d` plus one;
that is `ceil(d)` in seconds whenever `d` is less than one second, and
`ceil(d) + 1`, namely 2, when `d` is exactly one second. -/
theorem rateLimiter_retryAfter {σ : Type} (r : Int) (hr : 1 ≤ r) (rl : RateLimiter)
    (hlimit : rl.limitDuration = Int.tdiv Second r)
    (next : Handler σ) (tSince tNow : Time) (req : Request) (world : σ)
    (hmono : rl.lastRequestTime ≤ tSince)
    (hlt : Since tSince rl.lastRequestTime < rl.limitDuration) :
    (rl.ServeHTTP next tSince tNow NewRecorder req world).2.1.result.snapHeader.Get
      "Retry-After" =
      toString ((rl.limitDuration - Since tSince rl.lastRequestTime) / 1000000000 + 1) ∧
    (rl.limitDuration - Since tSince rl.lastRequestTime < 1000000000 →
      (rl.ServeHTTP next tSince tNow NewRecorder req world).2.1.result.snapHeader.Get
        "Retry-After" =
        toString (ceilSeconds (rl.limitDuration - Since tSince rl.lastRequestTime))) ∧
    (rl.limitDuration - Since tSince rl.lastRequestTime = 1000000000 →
      (rl.ServeHTTP next tSince tNow NewRecorder req world).2.1.result.snapHeader.Get
        "Retry-After" =
        toString (ceilSeconds (rl.limitDuration - Since tSince rl.lastRequestTime) + 1)) := by
  obtain ⟨hd0, hd1, hh⟩ := rateLimiter_reject r hr rl hlimit next tSince tNow req world hmono hlt
  generalize rl.limitDuration - Since tSince rl.lastRequestTime = d at *
  have hd0' : @LE.le Int _ 0 d := by omega
  have hv := retryAfterSeconds_eq d hd0' hd1
  have hc := ceilSeconds_eq_one d hd0 hd1
  rw [hh, hv, hc]
  refine ⟨rfl, fun hlt1 => ?_, fun heq => ?_⟩
  · have hlt2 : @LT.lt Int _ d 1000000000 := hlt1
    have : @Eq Int (d / 1000000000) 0 := by omega
    rw [this]
    rfl
  · have heq2 : @Eq Int d 1000000000 := heq
    rw [heq2]
    rfl

/-- C12, amended, with budget 1: a request 1 ns after the stored timestamp
gets Retry-After "1", the ceiling of the remaining 999999999 ns. -/
theorem rateLimiter_retryAfter_witness :
    (RateLimiter.ServeHTTP { lastRequestTime := 0, limitDuration := 1000000000 }
      countingHandler 1 2 NewRecorder (getRequest "/" "") 0).2.1.result.snapHeader.Get
        "Retry-After" = toString (((1000000000 : Int) - Since 1 0) / 1000000000 + 1) :=
  (rateLimiter_retryAfter 1 (by decide) { lastRequestTime := 0, limitDuration := 1000000000 }
    (by decide!) countingHandler 1 2 (getRequest "/" "") 0 (by decide) (by decide!)).1

/-! ## The response mapping -/

/-- C15 as stated fails: upstream data whose first condition has the empty
label (as decoded from a condition object without a label) is mapped to a response with the
empty condition label. -/
theorem mapWeatherData_empty_label :
    (MapWeatherDataToResponse { Main := { Temp := 0 }, Weather := [{ Main := "" }] }
      "metric").WeatherCondition = "" := by
  decide!

/-- C15, amended: for every WeatherData value and unit tag the temperature
category of the response is one of the six labels, and the condition label is
"Unknown" when the condition list is empty and the label of the first
condition otherwise; so it is non-empty whenever the list is empty or its
first label is non-empty. -/
theorem mapWeatherData_invariant (data : WeatherData) (unit : String) :
    (MapWeatherDataToResponse data unit).TempCategory ∈ temperatureCategories ∧
    (data.Weather = [] → (MapWeatherDataToResponse data unit).WeatherCondition = "Unknown") ∧
    (∀ first rest, data.Weather = first :: rest →
      (MapWeatherDataToResponse data unit).WeatherCondition = first.Main) ∧
    ((∀ first rest, data.Weather = first :: rest → first.Main ≠ "") →
      (MapWeatherDataToResponse data unit).WeatherCondition ≠ "") := by
  refine ⟨categorize_mem _, fun h => ?_, fun first rest h => ?_, fun hne => ?_⟩
  · simp [MapWeatherDataToResponse, h]
  · simp [MapWeatherDataToResponse, h]
  · cases hw : data.Weather with
    | nil => simp [MapWeatherDataToResponse, hw]
    | cons first rest =>
      simpa [MapWeatherDataToResponse, hw] using hne first rest hw

/-- C15, amended, on the data of the success test: the label "Clear" is kept
and is not empty. -/
theorem mapWeatherData_invariant_witness :
    (MapWeatherDataToResponse clearSkyData "standard").WeatherCondition = "Clear" ∧
    (MapWeatherDataToResponse clearSkyData "standard").WeatherCondition ≠ "" :=
  ⟨(mapWeatherData_invariant clearSkyData "standard").2.2.1 { Main := "Clear" } [] rfl,
   (mapWeatherData_invariant clearSkyData "standard").2.2.2
    (by intro first rest h
        simp only [clearSkyData, List.cons.injEq] at h
        rw [← h.1]
        decide)⟩

/-! ## url.Values -/

theorem mem_eraseDups_loop (a : String) (as bs : List String) :
    a ∈ List.eraseDups.loop as bs ↔ a ∈ as ∨ a ∈ bs := by
  induction as generalizing bs with
  | nil => simp [List.eraseDups.loop]
  | cons x xs ih =>
    unfold List.eraseDups.loop
    cases hx : bs.elem x with
    | true =>
      simp only [ih]
      have hmem : x ∈ bs := by simpa using hx
      constructor
      · rintro (h | h)
        · exact Or.inl (List.mem_cons_of_mem _ h)
        · exact Or.inr h
      · rintro (h | h)
        · rcases List.mem_cons.mp h with h1 | h1
          · subst h1; exact Or.inr hmem
          · exact Or.inl h1
        · exact Or.inr h
    | false =>
      simp only [ih, List.mem_cons]
      tauto

theorem nodup_eraseDups_loop (as bs : List String) (h : bs.Nodup) :
    (List.eraseDups.loop as bs).Nodup := by
  induction as generalizing bs with
  | nil => simpa [List.eraseDups.loop] using h
  | cons x xs ih =>
    unfold List.eraseDups.loop
    cases hx : bs.elem x with
    | true => exact ih bs h
    | false =>
      have hmem : x ∉ bs := by
        intro hc
        have : bs.elem x = true := by simpa using hc
        rw [hx] at this
        exact Bool.false_ne_true this
      exact ih (x :: bs) (List.nodup_cons.mpr ⟨hmem, h⟩)

theorem mem_eraseDups (a : String) (l : List String) : a ∈ l.eraseDups ↔ a ∈ l := by
  unfold List.eraseDups
  simp [mem_eraseDups_loop]

theorem nodup_eraseDups (l : List String) : l.eraseDups.Nodup :=
  nodup_eraseDups_loop l [] List.nodup_nil

/-- The keys written by `Encode` are exactly the keys of the map. -/
theorem mem_sortedKeys (v : Values) (k : String) :
    k ∈ Values.sortedKeys v ↔ k ∈ v.map Prod.fst := by
  unfold Values.sortedKeys
  rw [(List.perm_insertionSort _ _).mem_iff, mem_eraseDups]

/-- The keys written by `Encode` are in strictly increasing order. -/
theorem sortedKeys_sorted (v : Values) : (Values.sortedKeys v).Sorted (· < ·) := by
  have hs : (Values.sortedKeys v).Sorted (fun a b => a < b ∨ a = b) :=
    List.sorted_insertionSort _ _
  have hn : (Values.sortedKeys v).Nodup :=
    (List.perm_insertionSort _ _).nodup_iff.mpr (nodup_eraseDups _)
  unfold List.Sorted at hs ⊢
  have hboth := List.Pairwise.and hs hn
  refine hboth.imp ?_
  intro a b hab
  rcases hab.1 with h | h
  · exact h
  · exact absurd h hab.2

theorem encode_eq (v : Values) :
    Values.Encode v = "&".intercalate ((Values.sortedKeys v).flatMap (fun k =>
      ((v.lookup k).getD []).map (fun x => QueryEscape k ++ "=" ++ QueryEscape x))) := rfl

theorem lookup_filter_ne (v : Values) (k key : String) (h : k ≠ key) :
    (v.filter (fun kv => kv.1 != key)).lookup k = v.lookup k := by
  induction v with
  | nil => rfl
  | cons kv rest ih =>
    obtain ⟨a, b⟩ := kv
    by_cases ha : a = key
    · subst ha
      have h1 : ((a, b) :: rest).filter (fun kv => kv.1 != a) =
          rest.filter (fun kv => kv.1 != a) := by
        simp [List.filter]
      rw [h1, ih, List.lookup_cons]
      have : (k == a) = false := by simpa using h
      rw [this]
    · have h1 : ((a, b) :: rest).filter (fun kv => kv.1 != key) =
          (a, b) :: rest.filter (fun kv => kv.1 != key) := by
        have hb : (a != key) = true := by simpa using ha
        simp [List.filter, hb]
      rw [h1, List.lookup_cons, List.lookup_cons, ih]

/-- After `Set` the parameter has the single value given, the others are as before. -/
theorem lookup_Set (v : Values) (key value k : String) :
    (Values.Set v key value).lookup k = if k = key then some [value] else v.lookup k := by
  unfold Values.Set
  by_cases h : k = key
  · subst h; simp
  · rw [if_neg h, List.lookup_cons]
    have : (k == key) = false := by simpa using h
    rw [this]
    exact lookup_filter_ne v k key h

theorem keys_Set (v : Values) (key value k : String) :
    k ∈ (Values.Set v key value).map Prod.fst ↔ k = key ∨ k ∈ v.map Prod.fst := by
  unfold Values.Set
  rw [List.map_cons, List.mem_cons]
  constructor
  · rintro (h | h)
    · exact Or.inl h
    · obtain ⟨kv, hkv, hk⟩ := List.mem_map.mp h
      exact Or.inr (List.mem_map.mpr ⟨kv, (List.mem_filter.mp hkv).1, hk⟩)
  · rintro (h | h)
    · exact Or.inl h
    · by_cases hk : k = key
      · exact Or.inl hk
      · obtain ⟨kv, hkv, hk2⟩ := List.mem_map.mp h
        refine Or.inr (List.mem_map.mpr ⟨kv, List.mem_filter.mpr ⟨hkv, ?_⟩, hk2⟩)
        have : kv.1 ≠ key := by rw [hk2]; exact hk
        simpa using this
theorem intercalate_go_length (s : String) (l : List String) (acc : String) :
    acc.length ≤ (String.intercalate.go acc s l).length ∧
    ∀ x ∈ l, x.length ≤ (String.intercalate.go acc s l).length := by
  induction l generalizing acc with
  | nil => simp [String.intercalate.go]
  | cons a as ih =>
    unfold String.intercalate.go
    have h := ih (acc ++ s ++ a)
    have hl : (acc ++ s ++ a).length = acc.length + s.length + a.length := by
      simp [String.length_append]
    constructor
    · omega
    · intro x hx
      rcases List.mem_cons.mp hx with h1 | h1
      · subst h1; omega
      · exact h.2 x h1

/-- Every piece is at most as long as the joined string. -/
theorem length_le_intercalate (s : String) (l : List String) (x : String) (hx : x ∈ l) :
    x.length ≤ (s.intercalate l).length := by
  cases l with
  | nil => cases hx
  | cons a as =>
    unfold String.intercalate
    have h := intercalate_go_length s as a
    rcases List.mem_cons.mp hx with h1 | h1
    · subst h1; exact h.1
    · exact h.2 x h1

theorem keys_nodup_Set (v : Values) (key value : String) (h : (v.map Prod.fst).Nodup) :
    ((Values.Set v key value).map Prod.fst).Nodup := by
  unfold Values.Set
  rw [List.map_cons, List.nodup_cons]
  constructor
  · intro hc
    obtain ⟨kv, hkv, hk⟩ := List.mem_map.mp hc
    have := (List.mem_filter.mp hkv).2
    simp at this
    exact this hk
  · exact List.Nodup.sublist (List.Sublist.map _ (List.filter_sublist _)) h

theorem perm_Set (v₁ v₂ : Values) (key value : String) (h : v₁.Perm v₂) :
    (Values.Set v₁ key value).Perm (Values.Set v₂ key value) := by
  unfold Values.Set
  exact List.Perm.cons _ (List.Perm.filter _ h)

/-- In a map, looking a key up does not depend on the order of the entries. -/
theorem lookup_perm (v₁ v₂ : Values) (h : v₁.Perm v₂) (hn : (v₁.map Prod.fst).Nodup)
    (k : String) : v₁.lookup k = v₂.lookup k := by
  induction h with
  | nil => rfl
  | cons x _ ih =>
    rw [List.map_cons, List.nodup_cons] at hn
    obtain ⟨a, b⟩ := x
    rw [List.lookup_cons, List.lookup_cons, ih hn.2]
  | swap x y l =>
    obtain ⟨a, b⟩ := x
    obtain ⟨c, d⟩ := y
    have hne : c ≠ a := by
      intro hc
      simp only [List.map_cons, List.nodup_cons, List.mem_cons] at hn
      exact hn.1 (Or.inl hc)
    simp only [List.lookup_cons]
    by_cases h1 : k = a
    · subst h1
      have : (k == c) = false := by simpa using (Ne.symm hne)
      simp [this]
    · have : (k == a) = false := by simpa using h1
      simp [this]
  | trans h₁ _ ih₁ ih₂ =>
    rw [ih₁ hn, ih₂ ((List.Perm.map Prod.fst h₁).nodup_iff.mp hn)]

theorem sortedKeys_perm (v₁ v₂ : Values) (h : v₁.Perm v₂) :
    Values.sortedKeys v₁ = Values.sortedKeys v₂ := by
  apply List.eq_of_perm_of_sorted _ (sortedKeys_sorted v₁) (sortedKeys_sorted v₂)
  have n1 : (Values.sortedKeys v₁).Nodup :=
    (List.perm_insertionSort _ _).nodup_iff.mpr (nodup_eraseDups _)
  have n2 : (Values.sortedKeys v₂).Nodup :=
    (List.perm_insertionSort _ _).nodup_iff.mpr (nodup_eraseDups _)
  rw [List.perm_ext_iff_of_nodup n1 n2]
  intro k
  rw [mem_sortedKeys, mem_sortedKeys]
  exact (List.Perm.map Prod.fst h).mem_iff

/-- The encoding of a map does not depend on the order of its entries. -/
theorem encode_perm (v₁ v₂ : Values) (h : v₁.Perm v₂) (hn : (v₁.map Prod.fst).Nodup) :
    Values.Encode v₁ = Values.Encode v₂ := by
  rw [encode_eq, encode_eq, sortedKeys_perm v₁ v₂ h]
  have hf : (fun k => ((v₁.lookup k).getD []).map
        (fun x => QueryEscape k ++ "=" ++ QueryEscape x)) =
      (fun k => ((v₂.lookup k).getD []).map
        (fun x => QueryEscape k ++ "=" ++ QueryEscape x)) := by
    funext k
    rw [lookup_perm v₁ v₂ h hn k]
  rw [hf]

/-- The encoding of a map that has a parameter with a value is not empty. -/
theorem encode_ne_empty (v : Values) (k x : String) (rest : List String)
    (h : v.lookup k = some (x :: rest)) : Values.Encode v ≠ "" := by
  have hk : k ∈ Values.sortedKeys v := by
    rw [mem_sortedKeys]
    have := List.lookup_isSome_iff.mp (by rw [h]; rfl : (v.lookup k).isSome = true)
    obtain ⟨p, hp, hpk⟩ := this
    have hk2 : k = p.1 := by simpa using hpk
    exact List.mem_map.mpr ⟨p, hp, hk2.symm⟩
  have hmem : (QueryEscape k ++ "=" ++ QueryEscape x) ∈
      (Values.sortedKeys v).flatMap (fun k =>
        ((v.lookup k).getD []).map (fun x => QueryEscape k ++ "=" ++ QueryEscape x)) := by
    rw [List.mem_flatMap]
    exact ⟨k, hk, by simp [h]⟩
  have hlen := length_le_intercalate "&" _ _ hmem
  rw [← encode_eq] at hlen
  intro hc
  rw [hc] at hlen
  simp [String.length_append] at hlen
  have h1 : ("=" : String).length = 1 := by decide
  omega
/-! ## The URL builder -/

/-- The query map the builder encodes: the four parameters have the single
value given, every other parameter is as in the base map. -/
theorem builder_query (base : Values) (apiKey lat lon unit : String) :
    let q := Values.Set (Values.Set (Values.Set (Values.Set base "lat" lat) "lon" lon)
      "appid" apiKey) "units" unit
    q.lookup "lat" = some [lat] ∧ q.lookup "lon" = some [lon] ∧
    q.lookup "appid" = some [apiKey] ∧ q.lookup "units" = some [unit] ∧
    (∀ k, k ∉ builderParams → q.lookup k = base.lookup k) ∧
    (∀ k, k ∈ Values.sortedKeys q ↔ k ∈ builderParams ∨ k ∈ base.map Prod.fst) := by
  intro q
  refine ⟨?_, ?_, ?_, ?_, ?_, ?_⟩
  · simp [q, lookup_Set]
  · simp [q, lookup_Set]
  · simp [q, lookup_Set]
  · simp [q, lookup_Set]
  · intro k hk
    simp only [builderParams, List.mem_cons, List.mem_singleton, List.not_mem_nil, or_false,
      not_or] at hk
    simp [q, lookup_Set, hk.1, hk.2.1, hk.2.2.1, hk.2.2.2]
  · intro k
    simp only [q, mem_sortedKeys, keys_Set, builderParams, List.mem_cons, List.mem_singleton,
      List.not_mem_nil, or_false]
    tauto

/-- The builder on a base URL that parses: the parsed URL with `?` and the
encoding of the query map in place of its query. -/
theorem builder_ok (url : NetURL) (baseURL apiKey lat lon unit : String) (u : URL)
    (hparse : url.Parse baseURL = .ok u) :
    BuildOpenWeatherMapURL url baseURL apiKey lat lon unit =
      .ok (u.pre ++ ("?" ++ Values.Encode (Values.Set (Values.Set (Values.Set
        (Values.Set (url.ParseQuery u.RawQuery) "lat" lat) "lon" lon) "appid" apiKey)
        "units" unit)) ++ u.frag) := by
  have hne := encode_ne_empty (Values.Set (Values.Set (Values.Set
      (Values.Set (url.ParseQuery u.RawQuery) "lat" lat) "lon" lon) "appid" apiKey)
      "units" unit) "units" unit [] (by simp [lookup_Set])
  simp only [BuildOpenWeatherMapURL, hparse, URL.String]
  rw [if_pos (Or.inr hne)]

/-- C13: for every base URL that parses the builder returns, without error,
the parsed URL with `?` and the encoding of a query map `q` in which lat, lon,
appid and units each have exactly the one value given (whatever the base URL
had under these names) and every other parameter is as in the base URL; the
encoding writes the `key=value` pairs joined by `&` with the keys of `q` in
strictly increasing lexicographic order; for the base URL, key, coordinates
and unit of the builder test the result is the URL expected there. -/
theorem buildURL_spec (url : NetURL) (baseURL apiKey lat lon unit : String) (u : URL)
    (hparse : url.Parse baseURL = .ok u) :
    (∃ q : Values,
      BuildOpenWeatherMapURL url baseURL apiKey lat lon unit =
        .ok (u.pre ++ ("?" ++ Values.Encode q) ++ u.frag) ∧
      q.lookup "lat" = some [lat] ∧ q.lookup "lon" = some [lon] ∧
      q.lookup "appid" = some [apiKey] ∧ q.lookup "units" = some [unit] ∧
      (∀ k, k ∉ builderParams → q.lookup k = (url.ParseQuery u.RawQuery).lookup k) ∧
      Values.Encode q = "&".intercalate ((Values.sortedKeys q).flatMap (fun k =>
        ((q.lookup k).getD []).map (fun x => QueryEscape k ++ "=" ++ QueryEscape x))) ∧
      (Values.sortedKeys q).Sorted (· < ·) ∧
      (∀ k, k ∈ Values.sortedKeys q ↔ k ∈ q.map Prod.fst)) ∧
    BuildOpenWeatherMapURL plainURL "https://api.openweathermap.org/data/2.5/weather"
      "testapikey" "35.6895" "139.6917" "metric" =
      .ok ("https://api.openweathermap.org/data/2.5/weather" ++
        "?appid=testapikey&lat=35.6895&lon=139.6917&units=metric") := by
  refine ⟨⟨_, builder_ok url baseURL apiKey lat lon unit u hparse, ?_⟩, by decide!⟩
  have hq := builder_query (url.ParseQuery u.RawQuery) apiKey lat lon unit
  exact ⟨hq.1, hq.2.1, hq.2.2.1, hq.2.2.2.1, hq.2.2.2.2.1, encode_eq _, sortedKeys_sorted _,
    mem_sortedKeys _⟩

/-- C13 on the inputs of the builder test: the URL has the form stated, with
a query map holding the credential under appid. -/
theorem buildURL_spec_witness :
    ∃ q : Values,
      BuildOpenWeatherMapURL plainURL "https://api.openweathermap.org/data/2.5/weather"
        "testapikey" "35.6895" "139.6917" "metric" =
        .ok ("https://api.openweathermap.org/data/2.5/weather" ++ ("?" ++ Values.Encode q) ++
          "") ∧
      q.lookup "appid" = some ["testapikey"] ∧ (Values.sortedKeys q).Sorted (· < ·) :=
  (buildURL_spec plainURL "https://api.openweathermap.org/data/2.5/weather" "testapikey"
    "35.6895" "139.6917" "metric" { pre := "https://api.openweathermap.org/data/2.5/weather" }
    (by decide!)).1.elim (fun q hq => ⟨q, hq.1, hq.2.2.2.1, hq.2.2.2.2.2.2.2.1⟩)

/-- C14 as stated fails: on a base URL that carries the parameter `mode` the
URL built has five parameter names, `mode` among them. -/
theorem buildURL_keeps_other_params :
    BuildOpenWeatherMapURL plainQueryURL "http://example.com/data?mode=xml" "k" "1" "2"
      "metric" = .ok "http://example.com/data?appid=k&lat=1&lon=2&mode=xml&units=metric" ∧
    (parseQueryPlain "appid=k&lat=1&lon=2&mode=xml&units=metric").map Prod.fst =
      ["appid", "lat", "lon", "mode", "units"] ∧
    "mode" ∉ builderParams := by
  refine ⟨by decide!, by decide!, by decide⟩

/-- C14, amended: for every base URL that parses, the parameter names of the
URL built are lat, lon, appid, units and the names the query of the base URL
already had, hence exactly the four when the base URL has no other name; and
the URL built is determined by the inputs: it is the same for every order in
which the parsed query map holds its entries. -/
theorem buildURL_names (url : NetURL) (baseURL apiKey lat lon unit : String) (u : URL)
    (hparse : url.Parse baseURL = .ok u) :
    (∃ q : Values,
      BuildOpenWeatherMapURL url baseURL apiKey lat lon unit =
        .ok (u.pre ++ ("?" ++ Values.Encode q) ++ u.frag) ∧
      (∀ k, k ∈ Values.sortedKeys q ↔
        k ∈ builderParams ∨ k ∈ (url.ParseQuery u.RawQuery).map Prod.fst) ∧
      ((∀ k ∈ (url.ParseQuery u.RawQuery).map Prod.fst, k ∈ builderParams) →
        ∀ k, k ∈ Values.sortedKeys q ↔ k ∈ builderParams)) ∧
    (∀ other : NetURL, other.Parse baseURL = .ok u →
      (other.ParseQuery u.RawQuery).Perm (url.ParseQuery u.RawQuery) →
      ((other.ParseQuery u.RawQuery).map Prod.fst).Nodup →
      BuildOpenWeatherMapURL other baseURL apiKey lat lon unit =
        BuildOpenWeatherMapURL url baseURL apiKey lat lon unit) := by
  have hq := builder_query (url.ParseQuery u.RawQuery) apiKey lat lon unit
  refine ⟨⟨_, builder_ok url baseURL apiKey lat lon unit u hparse, hq.2.2.2.2.2, ?_⟩, ?_⟩
  · intro hall k
    rw [hq.2.2.2.2.2 k]
    constructor
    · rintro (h | h)
      · exact h
      · exact hall k h
    · exact Or.inl
  · intro other hother hperm hnodup
    rw [builder_ok url baseURL apiKey lat lon unit u hparse,
      builder_ok other baseURL apiKey lat lon unit u hother]
    have hp := perm_Set _ _ "units" unit (perm_Set _ _ "appid" apiKey
      (perm_Set _ _ "lon" lon (perm_Set _ _ "lat" lat hperm)))
    have hn := keys_nodup_Set _ "units" unit (keys_nodup_Set _ "appid" apiKey
      (keys_nodup_Set _ "lon" lon (keys_nodup_Set _ "lat" lat hnodup)))
    rw [encode_perm _ _ hp hn]

/-- C14, amended, on the base URL of the builder test, which has no query:
the names are exactly the four. -/
theorem buildURL_names_witness :
    ∃ q : Values,
      BuildOpenWeatherMapURL plainURL "https://api.openweathermap.org/data/2.5/weather"
        "testapikey" "35.6895" "139.6917" "metric" =
        .ok ("https://api.openweathermap.org/data/2.5/weather" ++ ("?" ++ Values.Encode q) ++
          "") ∧
      ∀ k, k ∈ Values.sortedKeys q ↔ k ∈ builderParams :=
  (buildURL_names plainURL "https://api.openweathermap.org/data/2.5/weather" "testapikey"
    "35.6895" "139.6917" "metric" { pre := "https://api.openweathermap.org/data/2.5/weather" }
    (by decide!)).1.elim (fun q hq => ⟨q, hq.1, hq.2.2 (by decide!)⟩)

/-! ## Runs of the rate limiter -/

/-- The state left by one request: unchanged when rejected, the time of
`time.Now()` stored when admitted. -/
theorem serve_state {σ : Type} (rl : RateLimiter) (next : Handler σ) (tSince tNow : Time)
    (w : ResponseWriter) (r : Request) (world : σ) :
    (rl.ServeHTTP next tSince tNow w r world).1 =
      if Since tSince rl.lastRequestTime < rl.limitDuration then rl
      else { rl with lastRequestTime := tNow } := by
  unfold RateLimiter.ServeHTTP
  simp only
  split_ifs <;> rfl

theorem admitted_gap (last tS L : Int) (h : last ≤ tS) (hL : L ≤ 1000000000)
    (hadm : ¬ (Since tS last < L)) : L ≤ tS - last := by
  have h63 : (2 : Int) ^ 63 = 9223372036854775808 := by norm_num
  simp only [Since, Time.Sub, h63] at hadm
  change ¬ @LT.lt Int _ _ L at hadm
  omega

theorem chain_le_head (a b : Int) (l : List Int) (hab : a ≤ b)
    (h : List.Chain (fun x y : Int => x ≤ y) b l) :
    List.Chain (fun x y : Int => x ≤ y) a l := by
  cases l with
  | nil => exact List.Chain.nil
  | cons c rest =>
    rw [List.chain_cons] at h ⊢
    exact ⟨le_trans hab h.1, h.2⟩

/-- Along a run with non-decreasing clock readings every state found is at
least the initial one, no request lowers the stored time, the limit stays,
and the stored time is never after the clock reading of the request. -/
theorem run_states {σ : Type} (next : Handler σ) (arrivals : List Arrival) :
    ∀ (rl : RateLimiter) (world : σ),
      List.Chain (fun x y : Int => x ≤ y) rl.lastRequestTime (clockReadings arrivals) →
      ∀ s ∈ RateLimiter.run next rl arrivals world,
        @LE.le Int _ rl.lastRequestTime s.before.lastRequestTime ∧
        @LE.le Int _ s.before.lastRequestTime s.after.lastRequestTime ∧
        @LE.le Int _ s.before.lastRequestTime s.arrival.tSince ∧
        s.before.limitDuration = rl.limitDuration ∧
        s.after.limitDuration = rl.limitDuration ∧
        (s.admitted → s.after.lastRequestTime = s.arrival.tNow) ∧
        (¬ s.admitted → s.after = s.before) := by
  induction arrivals with
  | nil => intro rl world _ s hs; simp [RateLimiter.run] at hs
  | cons a rest ih =>
    intro rl world hchain s hs
    simp only [clockReadings, List.chain_cons] at hchain
    obtain ⟨h1, h2, h3⟩ := hchain
    have hstate := serve_state rl next a.tSince a.tNow a.w a.r world
    simp only [RateLimiter.run, List.mem_cons] at hs
    rcases hs with hs | hs
    · subst hs
      refine ⟨le_refl _, ?_, h1, rfl, ?_, ?_, ?_⟩
      · show @LE.le Int _ rl.lastRequestTime _
        rw [hstate]
        split_ifs
        · exact le_refl _
        · exact le_trans h1 h2
      · show RateLimiter.limitDuration _ = rl.limitDuration
        rw [hstate]
        split_ifs <;> rfl
      · intro hadm
        show RateLimiter.lastRequestTime _ = a.tNow
        rw [hstate, if_neg hadm]
      · intro hadm
        show (RateLimiter.ServeHTTP rl next a.tSince a.tNow a.w a.r world).1 = rl
        rw [hstate, if_pos (not_not.mp hadm)]
    · have hlast : @LE.le Int _ rl.lastRequestTime
          (rl.ServeHTTP next a.tSince a.tNow a.w a.r world).1.lastRequestTime := by
        rw [hstate]
        split_ifs
        · exact le_refl _
        · exact le_trans h1 h2
      have hlast2 : @LE.le Int _
          (rl.ServeHTTP next a.tSince a.tNow a.w a.r world).1.lastRequestTime a.tNow := by
        rw [hstate]
        split_ifs
        · exact le_trans h1 h2
        · exact le_refl _
      have hlim : (rl.ServeHTTP next a.tSince a.tNow a.w a.r world).1.limitDuration =
          rl.limitDuration := by
        rw [hstate]
        split_ifs <;> rfl
      have := ih _ _ (chain_le_head _ _ _ hlast2 h3) s hs
      refine ⟨le_trans hlast this.1, this.2.1, this.2.2.1, ?_, ?_, this.2.2.2.2.2⟩
      · rw [this.2.2.2.1, hlim]
      · rw [this.2.2.2.2.1, hlim]
theorem run_pairwise {σ : Type} (next : Handler σ) (L : Int) (hL : L ≤ 1000000000)
    (arrivals : List Arrival) :
    ∀ (rl : RateLimiter) (world : σ), rl.limitDuration = L →
      List.Chain (fun x y : Int => x ≤ y) rl.lastRequestTime (clockReadings arrivals) →
      List.Pairwise (fun s t : Served =>
        @LE.le Int _ s.after.lastRequestTime t.before.lastRequestTime ∧
        (s.admitted → t.admitted →
          @LE.le Int _ L (t.arrival.tSince - s.arrival.tNow)))
        (RateLimiter.run next rl arrivals world) := by
  induction arrivals with
  | nil => intro rl world _ _; simp [RateLimiter.run]
  | cons a rest ih =>
    intro rl world hlim hchain
    have hhead := run_states next (a :: rest) rl world hchain
      { arrival := a, before := rl,
        after := (rl.ServeHTTP next a.tSince a.tNow a.w a.r world).1 }
      (by simp [RateLimiter.run])
    simp only [clockReadings, List.chain_cons] at hchain
    obtain ⟨h1, h2, h3⟩ := hchain
    have hstate := serve_state rl next a.tSince a.tNow a.w a.r world
    have hlast2 : @LE.le Int _
        (rl.ServeHTTP next a.tSince a.tNow a.w a.r world).1.lastRequestTime a.tNow := by
      rw [hstate]
      split_ifs
      · exact le_trans h1 h2
      · exact le_refl _
    have hlim2 : (rl.ServeHTTP next a.tSince a.tNow a.w a.r world).1.limitDuration = L := by
      rw [hhead.2.2.2.2.1, hlim]
    have hchain2 := chain_le_head _ _ _ hlast2 h3
    simp only [RateLimiter.run]
    rw [List.pairwise_cons]
    refine ⟨fun t ht => ?_, ih _ _ hlim2 hchain2⟩
    have hrest := run_states next rest _ _ hchain2 t ht
    refine ⟨hrest.1, fun hadm htadm => ?_⟩
    have hnow := hhead.2.2.2.2.2.1 hadm
    simp only at hnow
    have hgap := admitted_gap t.before.lastRequestTime t.arrival.tSince L hrest.2.2.1 hL
      (by
        have := htadm
        unfold Served.admitted at this
        rw [hrest.2.2.2.1, hlim2] at this
        exact this)
    have hge : @LE.le Int _ a.tNow t.before.lastRequestTime := by
      have := hrest.1
      rw [hnow] at this
      exact this
    show @LE.le Int _ L (t.arrival.tSince - a.tNow)
    omega

/-- C16: over every sequence of requests served by a limiter of budget
`r ≥ 1` with non-decreasing clock readings, no request lowers the stored time
of the last admission, the time stored after a request is at most the time
found by every later request, and of any two admitted requests the later one
reads the clock at least one interval (1 second / r) after the time stored by
the earlier one. -/
theorem rateLimiter_run_spacing {σ : Type} (r : Int) (hr : 1 ≤ r) (rl : RateLimiter)
    (hlimit : rl.limitDuration = Int.tdiv Second r) (next : Handler σ)
    (arrivals : List Arrival) (world : σ)
    (hclock : List.Chain (fun x y : Time => x ≤ y) rl.lastRequestTime
      (clockReadings arrivals)) :
    (∀ s ∈ RateLimiter.run next rl arrivals world,
      s.before.lastRequestTime ≤ s.after.lastRequestTime ∧
      (s.admitted → s.after.lastRequestTime = s.arrival.tNow) ∧
      (¬ s.admitted → s.after = s.before)) ∧
    List.Pairwise (fun s t : Served => s.after.lastRequestTime ≤ t.before.lastRequestTime)
      (RateLimiter.run next rl arrivals world) ∧
    List.Pairwise (fun s t : Served => s.admitted → t.admitted →
        Int.tdiv Second r ≤ t.arrival.tSince - s.arrival.tNow)
      (RateLimiter.run next rl arrivals world) := by
  have hL : Int.tdiv Second r ≤ 1000000000 := by
    rw [Int.tdiv_eq_ediv (by decide) (by omega)]
    exact Int.ediv_le_self _ (by decide)
  have hp := run_pairwise next (Int.tdiv Second r) hL arrivals rl world hlimit hclock
  refine ⟨fun s hs => ?_, hp.imp (fun h => h.1), hp.imp (fun h => h.2)⟩
  have := run_states next arrivals rl world hclock s hs
  exact ⟨this.2.1, this.2.2.2.2.2.1, this.2.2.2.2.2.2⟩

/-- C16 on the three requests of the limiter test with budget 1: one admitted
1.01 s after the stored time, one rejected right after it, one admitted
1.01 s later; the two admitted ones are a second apart. -/
theorem rateLimiter_run_spacing_witness :
    List.Pairwise (fun s t : Served => s.admitted → t.admitted →
        Int.tdiv Second 1 ≤ t.arrival.tSince - s.arrival.tNow)
      (RateLimiter.run countingHandler { lastRequestTime := 0, limitDuration := 1000000000 }
        [arrivalAt 1010000000 1010000001, arrivalAt 1010000002 1010000003,
          arrivalAt 2020000001 2020000002] 0) :=
  (rateLimiter_run_spacing 1 (by decide) { lastRequestTime := 0, limitDuration := 1000000000 }
    (by decide!) countingHandler
    [arrivalAt 1010000000 1010000001, arrivalAt 1010000002 1010000003,
      arrivalAt 2020000001 2020000002] 0
    (by simp [clockReadings, arrivalAt])).2.2

/-! ## The mutex of the rate limiter -/

/-- For an admitted request the handler locks the mutex, reads the clock,
stores the time, calls the next handler and only then, on return, unlocks. -/
theorem steps_admitted (rl : RateLimiter) (tSince : Time)
    (h : ¬ (Since tSince rl.lastRequestTime < rl.limitDuration)) :
    rl.steps tSince = [LimiterStep.Lock, LimiterStep.Since, LimiterStep.StoreNow,
      LimiterStep.ServeNext, LimiterStep.Unlock] ∧
    lockHeldAtNext false (rl.steps tSince) = some true := by
  have hs : rl.steps tSince = [LimiterStep.Lock, LimiterStep.Since, LimiterStep.StoreNow,
      LimiterStep.ServeNext, LimiterStep.Unlock] := by
    simp [RateLimiter.steps, h]
  exact ⟨hs, by rw [hs]; rfl⟩

/-- C17 (what the code does): with budget 1, for the request admitted 1.01 s
after the stored time, the statements executed are Lock, Since, StoreNow,
ServeNext, Unlock: the mutex is held while the next handler runs, the
deferred unlock coming after it. -/
theorem rateLimiter_lock_held_during_next :
    (RateLimiter.ServeHTTP { lastRequestTime := 0, limitDuration := 1000000000 }
      countingHandler 1010000000 1010000001 NewRecorder (getRequest "/" "") 0).2.2 = 1 ∧
    RateLimiter.steps { lastRequestTime := 0, limitDuration := 1000000000 } 1010000000 =
      [LimiterStep.Lock, LimiterStep.Since, LimiterStep.StoreNow, LimiterStep.ServeNext,
        LimiterStep.Unlock] ∧
    lockHeldAtNext false
      (RateLimiter.steps { lastRequestTime := 0, limitDuration := 1000000000 } 1010000000) =
      some true := by
  refine ⟨by decide!, by decide!, by decide!⟩

/-! ## The access logger -/

theorem getLast_getD_cons (code c : Int) (l : List Int) :
    ((code :: l).getLast?).getD c = (l.getLast?).getD code := by
  cases l with
  | nil => rfl
  | cons x xs =>
    rw [List.getLast?_cons_cons, List.getLast?_eq_getLast _ (List.cons_ne_nil x xs)]
    rfl

/-- A handler run on a `responseWriter` does to the embedded writer what it
does to that writer when given it directly, and the status code stored is the
code of its last call of `WriteHeader`, or the one stored before. -/
theorem run_logged {σ : Type} (p : WriterProg σ) :
    ∀ (w : ResponseWriter) (c : Int),
      p.run (.logged w c) = (.logged (p.run w).1 (((p.codes w).getLast?).getD c), (p.run w).2) := by
  induction p with
  | done world => intro w c; simp [WriterProg.run, WriterProg.codes]
  | header k ih =>
    intro w c
    simp only [WriterProg.run, WriterProg.codes, ResponseWriter.Header]
    exact ih _ w c
  | setHeader f k ih =>
    intro w c
    simp only [WriterProg.run, WriterProg.codes, ResponseWriter.modifyHeader]
    exact ih _ c
  | writeHeader code k ih =>
    intro w c
    simp only [WriterProg.run, WriterProg.codes, ResponseWriter.WriteHeader]
    rw [ih, getLast_getD_cons]
  | write data k ih =>
    intro w c
    simp only [WriterProg.run, WriterProg.codes, ResponseWriter.Write]
    exact ih _ c

/-- C19: for every downstream handler (acting on its writer through the
methods of `http.ResponseWriter`) and every request, the writer the logger
leaves is the one the handler leaves when given the writer directly, so
status, headers and body of the response are those the handler wrote, and so
is the world; one line is logged, whose status is the code of the last
`WriteHeader` call of the handler, or 200 when it made none; the handler of
the logger test, which writes 404, yields the response 404 and the line with
status 404. -/
theorem loggingMiddleware_spec {σ : Type} (prog : Request → σ → WriterProg σ)
    (tStart tSince : Time) (w : ResponseWriter) (r : Request) (world : σ)
    (log : List AccessLog) :
    LoggingMiddleware (Handler.ofProg prog) tStart tSince w r (world, log) =
      ((Handler.ofProg prog w r world).1,
        ((Handler.ofProg prog w r world).2,
          log ++ [{ Method := r.Method, URI := r.URL.Path,
                    Status := (((prog r world).codes w).getLast?).getD 200,
                    Duration := Since tSince tStart }])) ∧
    ((prog r world).codes w = [] →
      ((LoggingMiddleware (Handler.ofProg prog) tStart tSince w r (world, log)).2.2.getLast?).map
        AccessLog.Status = some 200) ∧
    (∀ code, (prog r world).codes w = [code] →
      ((LoggingMiddleware (Handler.ofProg prog) tStart tSince w r (world, log)).2.2.getLast?).map
        AccessLog.Status = some code) ∧
    (LoggingMiddleware (Handler.ofProg notFoundProg) 0 5 NewRecorder
      (getRequest "/testpath" "") (0, [])).1.result.Code = 404 ∧
    (LoggingMiddleware (Handler.ofProg notFoundProg) 0 5 NewRecorder
      (getRequest "/testpath" "") (0, [])).2.2 =
        [{ Method := "GET", URI := "/testpath", Status := 404, Duration := 5 }] := by
  have key : LoggingMiddleware (Handler.ofProg prog) tStart tSince w r (world, log) =
      ((Handler.ofProg prog w r world).1,
        ((Handler.ofProg prog w r world).2,
          log ++ [{ Method := r.Method, URI := r.URL.Path,
                    Status := (((prog r world).codes w).getLast?).getD 200,
                    Duration := Since tSince tStart }])) := by
    simp only [LoggingMiddleware, Handler.ofProg, newResponseWriter, run_logged,
      ResponseWriter.embedded, ResponseWriter.statusCode, StatusOK]
  refine ⟨key, fun h => ?_, fun code h => ?_, by decide!, by decide!⟩
  · rw [key, h]; simp
  · rw [key, h]; simp
/-- C19 on the handler of the logger test, whose one `WriteHeader` call has
the code 404: the line logged has status 404. -/
theorem loggingMiddleware_spec_witness :
    ((LoggingMiddleware (Handler.ofProg notFoundProg) 0 5 NewRecorder
      (getRequest "/testpath" "") (0, [])).2.2.getLast?).map AccessLog.Status = some 404 :=
  (loggingMiddleware_spec notFoundProg 0 5 NewRecorder (getRequest "/testpath" "") 0 []).2.2.1
    404 rfl

/-! ## The gate chain -/

/-- C18 as stated fails: in the chain of `main`, with budget 1, a request
1 µs after the stored time is answered 429 and a request admitted 1.01 s
after it without X-API-Key header is answered 400, and neither leaves a line
in the log. -/
theorem serverChain_rejects_unlogged :
    (serverChain { lastRequestTime := 0, limitDuration := 1000000000 } countingHandler
      1000 1001 1002 1003 NewRecorder (getRequest "/api/v1/weather" "lat=35&lon=139")
      (0, [])).2.1.result.Code = 429 ∧
    (serverChain { lastRequestTime := 0, limitDuration := 1000000000 } countingHandler
      1000 1001 1002 1003 NewRecorder (getRequest "/api/v1/weather" "lat=35&lon=139")
      (0, [])).2.2.2 = [] ∧
    (serverChain { lastRequestTime := 0, limitDuration := 1000000000 } countingHandler
      1010000000 1010000001 1010000002 1010000003 NewRecorder
      (getRequest "/api/v1/weather" "lat=35&lon=139") (0, [])).2.1.result.Code = 400 ∧
    (serverChain { lastRequestTime := 0, limitDuration := 1000000000 } countingHandler
      1010000000 1010000001 1010000002 1010000003 NewRecorder
      (getRequest "/api/v1/weather" "lat=35&lon=139") (0, [])).2.2.2 = [] := by
  refine ⟨by decide!, by decide!, by decide!, by decide!⟩

/-- C18, amended: in the chain of `main` a request rejected by the rate
limiter is answered 429 and one admitted without X-API-Key header is answered
400, both leaving the world and the log as they were; a request that passes
both gates adds exactly one line to the log, with its method, its path, the
status code stored by the writer of the logger after the handler has run, and
the time between the two clock readings of the logger. -/
theorem serverChain_logging {σ : Type} (rl : RateLimiter) (handler : Handler σ)
    (tSince tNow tStart tEnd : Time) (r : Request) (world : σ) (log : List AccessLog) :
    (Since tSince rl.lastRequestTime < rl.limitDuration →
      (serverChain rl handler tSince tNow tStart tEnd NewRecorder r
        (world, log)).2.1.result.Code = 429 ∧
      (serverChain rl handler tSince tNow tStart tEnd NewRecorder r (world, log)).2.2 =
        (world, log)) ∧
    (¬ Since tSince rl.lastRequestTime < rl.limitDuration → r.Header.Get "X-API-Key" = "" →
      (serverChain rl handler tSince tNow tStart tEnd NewRecorder r
        (world, log)).2.1.result.Code = 400 ∧
      (serverChain rl handler tSince tNow tStart tEnd NewRecorder r (world, log)).2.2 =
        (world, log)) ∧
    (¬ Since tSince rl.lastRequestTime < rl.limitDuration → r.Header.Get "X-API-Key" ≠ "" →
      ∀ w, (serverChain rl handler tSince tNow tStart tEnd w r (world, log)).2.2.2 =
        log ++ [{ Method := r.Method, URI := r.URL.Path,
                  Status := (handler (newResponseWriter w)
                    (r.WithContext (Context.WithValue r.Context
                      (CtxKey.APIKeyContextKey "apiKey")
                      (.string (r.Header.Get "X-API-Key")))) world).1.statusCode,
                  Duration := Since tEnd tStart }]) := by
  refine ⟨fun hlt => ?_, fun hge hkey => ?_, fun hge hkey w => ?_⟩
  · simp only [serverChain, RateLimiter.ServeHTTP, hlt, if_true, StatusTooManyRequests]
    exact ⟨(retryAfter_header _ _ _).2, trivial⟩
  · simp only [serverChain, RateLimiter.ServeHTTP, hge, if_false,
      OpenWeatherMapAuthMiddleware, APIKeyHeader, hkey, if_true, StatusBadRequest]
    exact ⟨(httpError_new _ _).1, trivial⟩
  · simp only [serverChain, RateLimiter.ServeHTTP, hge, if_false,
      OpenWeatherMapAuthMiddleware, APIKeyHeader, hkey, LoggingMiddleware, Request.WithContext,
      Request.Context]

/-- C18, amended, with budget 1: the request admitted 1.01 s after the stored
time with the header X-API-Key leaves one line, with status 200. -/
theorem serverChain_logging_witness :
    (serverChain { lastRequestTime := 0, limitDuration := 1000000000 } countingHandler
      1010000000 1010000001 1010000002 1010000003 NewRecorder
      { getRequest "/api/v1/weather" "lat=35&lon=139" with
        Header := Header.Set [] "X-API-Key" "k" } (0, [])).2.2.2 =
      [] ++ [{ Method := "GET", URI := "/api/v1/weather", Status := 200, Duration := 1 }] :=
  (serverChain_logging { lastRequestTime := 0, limitDuration := 1000000000 } countingHandler
    1010000000 1010000001 1010000002 1010000003
    { getRequest "/api/v1/weather" "lat=35&lon=139" with
      Header := Header.Set [] "X-API-Key" "k" } 0 []).2.2 (by decide!) (by decide!) NewRecorder

end WeatherService
